import Mathlib

/-!
# AI-Health-Chain dashboard: consent workflow

Shallow embedding of `src/components/ConsentManagement.js`.

The component is a set of asynchronous handlers over React state.  Each handler is
split at its `await` points into segments; a segment runs synchronously, emits
effects (alerts, wallet and gateway requests) and either finishes or leaves one
continuation pending.  A continuation carries the values its closure captured
(`formData`, `account`, `filterStatus`), exactly the variables the source reads after
the `await`; state setters write to the state that is live when the segment runs.
-/

namespace ConsentManagement

/-! ## Data -/

/-- A thrown value; the handlers only ever read `err.message`. -/
structure JsError where
  message : String
deriving DecidableEq, Repr

/-- A consent as returned by the gateway (the fields the view reads). -/
structure Consent where
  id : String
  patientId : String
  purpose : String
  status : String
  walletAddress : Option String
  createdAt : Option String
  blockchainTxHash : Option String
deriving DecidableEq, Repr

/-- The `formData` state: `{ patientId, purpose }`. -/
structure FormData where
  patientId : String
  purpose : String
deriving DecidableEq, Repr

/-- The object literal passed to `apiService.createConsent` (lines 77-82). -/
structure CreatePayload where
  patientId : String
  purpose : String
  walletAddress : String
  signature : String
deriving DecidableEq, Repr

/-- The body accepted by `apiService.updateConsent`: `{status, [blockchainTxHash]}`. -/
structure UpdateBody where
  status : String
  blockchainTxHash : Option String
deriving DecidableEq, Repr

/-- The resolved value of `apiService.getConsents`; the `consents` field may be missing. -/
structure ConsentsResponse where
  consents : Option (List Consent)
deriving DecidableEq, Repr

/-- The React state of the component (lines 24-36); `initialLoadedRef` is the ref's
`current` field. -/
structure State where
  consents : List Consent
  loading : Bool
  error : Option String
  filterStatus : String
  showCreateForm : Bool
  creating : Bool
  formData : FormData
  initialLoadedRef : Bool
deriving DecidableEq, Repr

/-- Everything the component does to the outside world. -/
inductive Effect where
  | preventDefault
  | alert (msg : String)
  | signMessage (message : String)
  | createConsent (payload : CreatePayload)
  | getConsents (patientId : Option String) (status : Option String)
  | updateConsent (consentId : String) (body : UpdateBody)
deriving DecidableEq, Repr

/-- A request to the wallet's signing operation. -/
def Effect.isSign : Effect → Bool
  | .signMessage _ => true
  | _ => false

/-- A request to the remote gateway. -/
def Effect.isGateway : Effect → Bool
  | .createConsent _ => true
  | .getConsents _ _ => true
  | .updateConsent _ _ => true
  | _ => false

/-- A consent-list request. -/
def Effect.isFetch : Effect → Bool
  | .getConsents _ _ => true
  | _ => false

/-- A consent-creation request. -/
def Effect.isCreate : Effect → Bool
  | .createConsent _ => true
  | _ => false

/-- A consent-update request. -/
def Effect.isUpdate : Effect → Bool
  | .updateConsent _ _ => true
  | _ => false

/-- Who is awaiting `fetchConsents()`: the mount/filter effect (line 56), the create
handler (line 86) or the update handler (line 100). -/
inductive Caller where
  | effect
  | create
  | update
deriving DecidableEq, Repr

/-- An `await` in flight, with the values captured by the closure that is suspended. -/
inductive Pending where
  /-- Line 75: `await signMessage(message)`. -/
  | sign (formData : FormData) (account : String) (filterStatus : String)
  /-- Line 77: `await apiService.createConsent(...)`. -/
  | create (filterStatus : String)
  /-- Line 99: `await apiService.updateConsent(...)`. -/
  | update (filterStatus : String)
  /-- Line 45: `await apiService.getConsents(null, status)`. -/
  | fetch (filterStatus : String) (caller : Caller)
deriving DecidableEq, Repr

/-- How an awaited promise settles. -/
inductive Reply where
  | rejected (err : JsError)
  | signature (sig : String)
  | done
  | consents (response : Option ConsentsResponse)
deriving DecidableEq, Repr

/-- The outcome of one synchronous segment of a handler. -/
structure Seg where
  state : State
  effects : List Effect
  next : Option Pending
deriving DecidableEq, Repr

/-! ## Handlers -/

/-- Line 46: `response?.consents || []`. -/
def consentsOf (response : Option ConsentsResponse) : List Consent :=
  match response with
  | some r => r.consents.getD []
  | none => []

/-- Line 44: `filterStatus === "all" ? null : filterStatus`. -/
def statusParam (filterStatus : String) : Option String :=
  if filterStatus = "all" then none else some filterStatus

/-- Line 74: the template literal that is signed. -/
def consentMessage (formData : FormData) : String :=
  "I consent to: " ++ formData.purpose ++ " for patient: " ++ formData.patientId

/-- JavaScript truthiness of the `account` prop (a string or null). -/
def truthy (account : Option String) : Bool :=
  match account with
  | some a => a != ""
  | none => false

/-- Lines 38-45: `fetchConsents` up to its `await`. -/
def fetchConsents (filterStatus : String) (caller : Caller) (s : State) : Seg :=
  let s1 := if !s.initialLoadedRef then { s with loading := true } else s
  let s2 := { s1 with error := none }
  let status := statusParam filterStatus
  { state := s2
    effects := [Effect.getConsents none status]
    next := some (Pending.fetch filterStatus caller) }

/-- Lines 46-52 and the caller's code after `await fetchConsents()`: `fetchConsents`
never rethrows, so the create handler continues into its `finally` (line 90) and the
update handler returns. -/
def fetchConsents_settled (caller : Caller) (r : Except JsError (Option ConsentsResponse))
    (s : State) : Seg :=
  let s1 :=
    match r with
    | .ok response => { s with consents := consentsOf response }
    | .error err => { s with error := some err.message }
  let s2 := { s1 with loading := false, initialLoadedRef := true }
  match caller with
  | .effect => { state := s2, effects := [], next := none }
  | .create => { state := { s2 with creating := false }, effects := [], next := none }
  | .update => { state := s2, effects := [], next := none }

/-- Lines 59-75: `handleCreateConsent` up to `await signMessage(message)`. -/
def handleCreateConsent (account : Option String) (s : State) : Seg :=
  match account with
  | none =>
    { state := s
      effects := [Effect.preventDefault, Effect.alert "Please connect your wallet first"]
      next := none }
  | some a =>
    if a = "" then
      { state := s
        effects := [Effect.preventDefault, Effect.alert "Please connect your wallet first"]
        next := none }
    else if s.formData.patientId = "" ∨ s.formData.purpose = "" then
      { state := s
        effects := [Effect.preventDefault, Effect.alert "Please fill in all fields"]
        next := none }
    else
      let message := consentMessage s.formData
      { state := { s with creating := true }
        effects := [Effect.preventDefault, Effect.signMessage message]
        next := some (Pending.sign s.formData a s.filterStatus) }

/-- Lines 75-82 and 87-91: after `signMessage` settles. -/
def handleCreateConsent_signed (formData : FormData) (account : String)
    (filterStatus : String) (r : Except JsError String) (s : State) : Seg :=
  match r with
  | .ok signature =>
    { state := s
      effects := [Effect.createConsent
        { patientId := formData.patientId
          purpose := formData.purpose
          walletAddress := account
          signature := signature }]
      next := some (Pending.create filterStatus) }
  | .error err =>
    { state := { s with creating := false }
      effects := [Effect.alert ("Failed to create consent: " ++ err.message)]
      next := none }

/-- Lines 84-91: after `apiService.createConsent` settles. -/
def handleCreateConsent_created (filterStatus : String) (r : Except JsError Unit)
    (s : State) : Seg :=
  match r with
  | .ok _ =>
    let s1 := { s with formData := { patientId := "", purpose := "" } }
    let s2 := { s1 with showCreateForm := false }
    fetchConsents filterStatus Caller.create s2
  | .error err =>
    { state := { s with creating := false }
      effects := [Effect.alert ("Failed to create consent: " ++ err.message)]
      next := none }

/-- Lines 96-99: `handleUpdateStatus` up to its first `await`. -/
def handleUpdateStatus (consentId newStatus : String) (s : State) : Seg :=
  { state := s
    effects := [Effect.updateConsent consentId { status := newStatus, blockchainTxHash := none }]
    next := some (Pending.update s.filterStatus) }

/-- Lines 100-103: after `apiService.updateConsent` settles. -/
def handleUpdateStatus_updated (filterStatus : String) (r : Except JsError Unit)
    (s : State) : Seg :=
  match r with
  | .ok _ => fetchConsents filterStatus Caller.update s
  | .error err =>
    { state := s
      effects := [Effect.alert ("Failed to update consent: " ++ err.message)]
      next := none }

/-- The two keys `handleFormChange` is called with (lines 160 and 171). -/
inductive Field where
  | patientId
  | purpose
deriving DecidableEq, Repr

/-- Lines 108-110: `setFormData((prev) => ({ ...prev, [field]: value }))`. -/
def handleFormChange (field : Field) (value : String) (s : State) : State :=
  match field with
  | .patientId => { s with formData := { s.formData with patientId := value } }
  | .purpose => { s with formData := { s.formData with purpose := value } }

/-- Lines 112-114: `setShowCreateForm((prev) => !prev)`. -/
def toggleCreateForm (s : State) : State :=
  { s with showCreateForm := !s.showCreateForm }

/-- Lines 206-218 with the effect of lines 55-57: `setFilterStatus(f)`; when the value
changes, `fetchConsents` is rebuilt and the effect runs it once. -/
def setFilterStatus (f : String) (s : State) : Seg :=
  if f = s.filterStatus then { state := s, effects := [], next := none }
  else fetchConsents f Caller.effect { s with filterStatus := f }

/-! ## The component as a transition system -/

/-- Resume a suspended closure with the way its promise settled; `none` when the reply
is not one that promise can produce. -/
def resume (p : Pending) (r : Reply) (s : State) : Option Seg :=
  match p, r with
  | .sign fd a f, .signature sig => some (handleCreateConsent_signed fd a f (.ok sig) s)
  | .sign fd a f, .rejected err => some (handleCreateConsent_signed fd a f (.error err) s)
  | .create f, .done => some (handleCreateConsent_created f (.ok ()) s)
  | .create f, .rejected err => some (handleCreateConsent_created f (.error err) s)
  | .update f, .done => some (handleUpdateStatus_updated f (.ok ()) s)
  | .update f, .rejected err => some (handleUpdateStatus_updated f (.error err) s)
  | .fetch _ c, .consents response => some (fetchConsents_settled c (.ok response) s)
  | .fetch _ c, .rejected err => some (fetchConsents_settled c (.error err) s)
  | _, _ => none

/-- The mounted component: the `account` prop, the React state, the awaits in flight
(oldest first) and every effect emitted so far (oldest first). -/
structure Sys where
  account : Option String
  state : State
  pending : List Pending
  log : List Effect
deriving DecidableEq, Repr

/-- What the user, the parent and the outside world can do to the component. -/
inductive Event where
  /-- The parent passes a new `account` prop. -/
  | accountChanged (account : Option String)
  /-- The create form is submitted. -/
  | submit
  /-- `handleUpdateStatus(consentId, newStatus)` is called. -/
  | updateStatus (consentId newStatus : String)
  /-- A filter button calls `setFilterStatus`. -/
  | filter (f : String)
  /-- A form field is edited. -/
  | formChange (field : Field) (value : String)
  /-- The create/cancel button is clicked. -/
  | toggleForm
  /-- The `i`-th await in flight settles. -/
  | settle (i : Nat) (r : Reply)
deriving DecidableEq, Repr

/-- Commit a segment: new state, effects appended, continuation queued. -/
def commit (account : Option String) (rest : List Pending) (log : List Effect)
    (seg : Seg) : Sys :=
  { account := account
    state := seg.state
    pending := rest ++ seg.next.toList
    log := log ++ seg.effects }

/-- One event. -/
def step (σ : Sys) (e : Event) : Option Sys :=
  match e with
  | .accountChanged a => some { σ with account := a }
  | .submit => some (commit σ.account σ.pending σ.log (handleCreateConsent σ.account σ.state))
  | .updateStatus consentId newStatus =>
    some (commit σ.account σ.pending σ.log (handleUpdateStatus consentId newStatus σ.state))
  | .filter f => some (commit σ.account σ.pending σ.log (setFilterStatus f σ.state))
  | .formChange field value => some { σ with state := handleFormChange field value σ.state }
  | .toggleForm => some { σ with state := toggleCreateForm σ.state }
  | .settle i r =>
    match σ.pending[i]? with
    | none => none
    | some p =>
      match resume p r σ.state with
      | none => none
      | some seg => some (commit σ.account (σ.pending.eraseIdx i) σ.log seg)

/-- A sequence of events, in order. -/
def run (σ : Sys) : List Event → Option Sys
  | [] => some σ
  | e :: es =>
    match step σ e with
    | none => none
    | some σ1 => run σ1 es

/-- Lines 24-33 and 36: the `useState`/`useRef` initial values. -/
def initialState : State :=
  { consents := []
    loading := true
    error := none
    filterStatus := "all"
    showCreateForm := false
    creating := false
    formData := { patientId := "", purpose := "" }
    initialLoadedRef := false }

/-- The component right after mounting: the effect of lines 55-57 has called
`fetchConsents` once. -/
def mount (account : Option String) : Sys :=
  commit account [] [] (fetchConsents initialState.filterStatus Caller.effect initialState)

/-- Number of signing requests in a log. -/
def signCount (log : List Effect) : Nat :=
  (log.filter Effect.isSign).length

/-- First consent of the gateway test fixture (`apiService.test.js`, lines 126-134). -/
def consent001 : Consent :=
  { id := "consent-001"
    patientId := "patient-001"
    purpose := "Research Study Participation"
    status := "active"
    walletAddress := some "0x1234567890abcdef"
    createdAt := some "2024-01-15T10:00:00Z"
    blockchainTxHash := some "0xabc123def456" }

/-- Second consent of the gateway test fixture (`apiService.test.js`, lines 135-142). -/
def consent002 : Consent :=
  { id := "consent-002"
    patientId := "patient-002"
    purpose := "Data Sharing with Research Institution"
    status := "pending"
    walletAddress := some "0xabcdef1234567890"
    createdAt := some "2024-01-16T11:00:00Z"
    blockchainTxHash := none }

/-- A blocking notification. -/
def Effect.isAlert : Effect → Bool
  | .alert _ => true
  | _ => false

/-- A button of the view with the call its `onClick` makes. -/
structure Control where
  label : String
  onClick : Event
deriving DecidableEq, Repr

/-- Lines 293-310: the `consent-actions` block of one consent card,
`consent.status === "pending" && account && (...)`. -/
def consentActions (account : Option String) (consent : Consent) : List Control :=
  if consent.status = "pending" ∧ truthy account = true then
    [{ label := "Approve", onClick := Event.updateStatus consent.id "active" },
     { label := "Revoke", onClick := Event.updateStatus consent.id "revoked" }]
  else []

/-- Lines 116-122 and 247-312: every control of the view that calls `handleUpdateStatus`;
while `loading` the view is only the loading message. -/
def renderedActions (σ : Sys) : List Control :=
  if σ.state.loading then [] else (σ.state.consents.map (consentActions σ.account)).flatten

end ConsentManagement

/-!
# Transaction history

Shallow embedding of `src/components/TransactionHistory.js`, in the same style: the only
asynchronous function is `fetchTransactions`, re-run by the effect of lines 56-58 whenever
`account` or `filterEnabled` changes.
-/

namespace TransactionHistory

/-- A transaction as returned by the gateway; `from_` and `to_` are the source's `from`
and `to`. -/
structure Transaction where
  id : String
  type : String
  from_ : String
  to_ : String
  amount : ℚ
  currency : String
  status : String
  timestamp : String
  blockchainTxHash : Option String
deriving DecidableEq, Repr

/-- The resolved value of `apiService.getTransactions`. -/
structure TransactionsResponse where
  transactions : Option (List Transaction)
deriving DecidableEq, Repr

/-- The React state of the component (lines 31-37). -/
structure State where
  transactions : List Transaction
  loading : Bool
  error : Option String
  filterEnabled : Bool
  initialLoadedRef : Bool
deriving DecidableEq, Repr

/-- The one request of the view: `apiService.getTransactions(walletAddress, limit)`. -/
inductive Effect where
  | getTransactions (walletAddress : Option String) (limit : Nat)
deriving DecidableEq, Repr

/-- Line 46 in flight, with the `account` and `filterEnabled` its closure captured. -/
inductive Pending where
  | fetch (account : Option String) (filterEnabled : Bool)
deriving DecidableEq, Repr

/-- How the awaited request settles. -/
inductive Reply where
  | rejected (err : ConsentManagement.JsError)
  | transactions (response : Option TransactionsResponse)
deriving DecidableEq, Repr

/-- The outcome of one synchronous segment. -/
structure Seg where
  state : State
  effects : List Effect
  next : Option Pending
deriving DecidableEq, Repr

/-- Line 47: `response?.transactions || []`. -/
def transactionsOf (response : Option TransactionsResponse) : List Transaction :=
  match response with
  | some r => r.transactions.getD []
  | none => []

/-- Lines 39-46: `fetchTransactions` up to its `await`. -/
def fetchTransactions (account : Option String) (filterEnabled : Bool) (s : State) : Seg :=
  let s1 := if !s.initialLoadedRef then { s with loading := true } else s
  let s2 := { s1 with error := none }
  let walletAddress := if filterEnabled then account else none
  { state := s2
    effects := [Effect.getTransactions walletAddress 20]
    next := some (Pending.fetch account filterEnabled) }

/-- Lines 47-53: `fetchTransactions` after the request settles. -/
def fetchTransactions_settled
    (r : Except ConsentManagement.JsError (Option TransactionsResponse)) (s : State) : Seg :=
  let s1 :=
    match r with
    | .ok response => { s with transactions := transactionsOf response }
    | .error err => { s with error := some err.message }
  let s2 := { s1 with loading := false, initialLoadedRef := true }
  { state := s2, effects := [], next := none }

/-- The mounted component. -/
structure Sys where
  account : Option String
  state : State
  pending : List Pending
  log : List Effect
deriving DecidableEq, Repr

/-- What can happen to the component. -/
inductive Event where
  /-- The parent passes a new `account` prop. -/
  | accountChanged (account : Option String)
  /-- Lines 60-62: the wallet-scope toggle is clicked. -/
  | toggleFilter
  /-- The `i`-th request in flight settles. -/
  | settle (i : Nat) (r : Reply)
deriving DecidableEq, Repr

/-- Commit a segment. -/
def commit (account : Option String) (rest : List Pending) (log : List Effect)
    (seg : Seg) : Sys :=
  { account := account
    state := seg.state
    pending := rest ++ seg.next.toList
    log := log ++ seg.effects }

/-- Resume the suspended `fetchTransactions`. -/
def resume (p : Pending) (r : Reply) (s : State) : Seg :=
  match p, r with
  | .fetch _ _, .transactions response => fetchTransactions_settled (.ok response) s
  | .fetch _ _, .rejected err => fetchTransactions_settled (.error err) s

/-- One event. A changed `account` or `filterEnabled` rebuilds `fetchTransactions`
(dependencies of line 54) and the effect of lines 56-58 calls it once. -/
def step (σ : Sys) (e : Event) : Option Sys :=
  match e with
  | .accountChanged a =>
    if a = σ.account then some σ
    else some (commit a σ.pending σ.log (fetchTransactions a σ.state.filterEnabled σ.state))
  | .toggleFilter =>
    let s1 := { σ.state with filterEnabled := !σ.state.filterEnabled }
    some (commit σ.account σ.pending σ.log (fetchTransactions σ.account s1.filterEnabled s1))
  | .settle i r =>
    match σ.pending[i]? with
    | none => none
    | some p => some (commit σ.account (σ.pending.eraseIdx i) σ.log (resume p r σ.state))

/-- A sequence of events, in order. -/
def run (σ : Sys) : List Event → Option Sys
  | [] => some σ
  | e :: es =>
    match step σ e with
    | none => none
    | some σ1 => run σ1 es

/-- Lines 31-37: the `useState`/`useRef` initial values. -/
def initialState : State :=
  { transactions := []
    loading := true
    error := none
    filterEnabled := true
    initialLoadedRef := false }

/-- The component right after mounting: the effect has called `fetchTransactions` once. -/
def mount (account : Option String) : Sys :=
  commit account [] [] (fetchTransactions account initialState.filterEnabled initialState)

/-- ECMAScript `\s`: the WhiteSpace and LineTerminator code points. -/
def isWhiteSpace (c : Char) : Bool :=
  let n := c.toNat
  n = 0x09 || n = 0x0A || n = 0x0B || n = 0x0C || n = 0x0D || n = 0x20 || n = 0xA0
    || n = 0x1680 || (0x2000 ≤ n && n ≤ 0x200A) || n = 0x2028 || n = 0x2029 || n = 0x202F
    || n = 0x205F || n = 0x3000 || n = 0xFEFF

/-- `replace(/\s+/g, "_")` on the characters of a string: every maximal run of whitespace
becomes one underscore; `inRun` says that the previous character was whitespace. -/
def replaceWhiteSpace : Bool → List Char → List Char
  | _, [] => []
  | inRun, c :: cs =>
    if isWhiteSpace c then
      if inRun then replaceWhiteSpace true cs else '_' :: replaceWhiteSpace true cs
    else c :: replaceWhiteSpace false cs

/-- JavaScript `s.includes(w)`. -/
def includes (s w : String) : Bool :=
  decide (w.data <:+: s.data)

/-- Lines 21-28: `getTransactionTypeClass`. The built-in `toLowerCase` is a parameter; an
absent `type` is `none`. -/
def getTransactionTypeClass (toLowerCase : String → String) (type : Option String) : String :=
  match type with
  | none => ""
  | some t =>
    if t = "" then ""
    else
      let normalizedType := String.mk (replaceWhiteSpace false (toLowerCase t).data)
      if includes normalizedType "consent" then "consent_approval"
      else if includes normalizedType "data" || includes normalizedType "access" then
        "data_access"
      else normalizedType

/-- Lower-casing of the letters A to Z, character by character: what `toLowerCase` does on
ASCII strings. -/
def asciiLowerCase (s : String) : String :=
  String.mk (s.data.map Char.toLower)

end TransactionHistory

/-!
# Patient list

Shallow embedding of `src/components/PatientList.js`. Page numbers are JavaScript numbers
that only ever take integer values here; they are modelled as integers.
-/

namespace PatientList

/-- A patient as returned by the gateway. -/
structure Patient where
  id : String
  name : String
  email : String
  dateOfBirth : String
  gender : String
  phone : Option String
  walletAddress : Option String
deriving DecidableEq, Repr

/-- The `pagination` object of the gateway's response. -/
structure Pagination where
  page : ℤ
  limit : ℤ
  total : ℤ
  totalPages : ℤ
deriving DecidableEq, Repr

/-- The resolved value of `apiService.getPatients`. -/
structure PatientsResponse where
  patients : Option (List Patient)
  pagination : Option Pagination
deriving DecidableEq, Repr

/-- The React state of the component (lines 20-25). -/
structure State where
  patients : List Patient
  loading : Bool
  error : Option String
  searchTerm : String
  currentPage : ℤ
  pagination : Option Pagination
deriving DecidableEq, Repr

/-- The one request of the view: `apiService.getPatients(page, limit, search)`. -/
inductive Effect where
  | getPatients (page : ℤ) (limit : ℤ) (search : String)
deriving DecidableEq, Repr

/-- Lines 31-35 in flight, with the `currentPage` and `searchTerm` its closure captured. -/
inductive Pending where
  | fetch (currentPage : ℤ) (searchTerm : String)
deriving DecidableEq, Repr

/-- How the awaited request settles. -/
inductive Reply where
  | rejected (err : ConsentManagement.JsError)
  | patients (response : Option PatientsResponse)
deriving DecidableEq, Repr

/-- The outcome of one synchronous segment. -/
structure Seg where
  state : State
  effects : List Effect
  next : Option Pending
deriving DecidableEq, Repr

/-- Line 36: `response?.patients || []`. -/
def patientsOf (response : Option PatientsResponse) : List Patient :=
  match response with
  | some r => r.patients.getD []
  | none => []

/-- Line 37: `response?.pagination || null`. -/
def paginationOf (response : Option PatientsResponse) : Option Pagination :=
  match response with
  | some r => r.pagination
  | none => none

/-- Lines 27-35: `fetchPatients` up to its `await`. -/
def fetchPatients (currentPage : ℤ) (searchTerm : String) (s : State) : Seg :=
  let s1 := { s with loading := true }
  let s2 := { s1 with error := none }
  { state := s2
    effects := [Effect.getPatients currentPage 10 searchTerm]
    next := some (Pending.fetch currentPage searchTerm) }

/-- Lines 36-42: `fetchPatients` after the request settles. -/
def fetchPatients_settled
    (r : Except ConsentManagement.JsError (Option PatientsResponse)) (s : State) : Seg :=
  let s1 :=
    match r with
    | .ok response =>
      { s with patients := patientsOf response, pagination := paginationOf response }
    | .error err => { s with error := some err.message }
  let s2 := { s1 with loading := false }
  { state := s2, effects := [], next := none }

/-- Lines 49-52: `setSearchTerm(e.target.value); setCurrentPage(1)`. -/
def handleSearch (value : String) (s : State) : State :=
  { s with searchTerm := value, currentPage := 1 }

/-- Lines 55-57: `setCurrentPage((prev) => Math.max(1, prev - 1))`. -/
def handlePrevPage (s : State) : State :=
  { s with currentPage := max 1 (s.currentPage - 1) }

/-- Lines 59-61: `setCurrentPage((prev) => prev + 1)`. -/
def handleNextPage (s : State) : State :=
  { s with currentPage := s.currentPage + 1 }

/-- Lines 45-47 after a state update: when `currentPage` or `searchTerm` changed,
`fetchPatients` is rebuilt (dependencies of line 43) and the effect calls it once. -/
def afterUpdate (old new : State) : Seg :=
  if new.currentPage = old.currentPage ∧ new.searchTerm = old.searchTerm then
    { state := new, effects := [], next := none }
  else fetchPatients new.currentPage new.searchTerm new

/-- The `disabled` attributes of the two pagination buttons (lines 166 and 175). -/
structure PaginationControls where
  prevDisabled : Bool
  nextDisabled : Bool
deriving DecidableEq, Repr

/-- Lines 70-76 and 164-180: the pagination block, rendered when there is no error and
`pagination && pagination.totalPages > 1`. -/
def paginationControls (s : State) : Option PaginationControls :=
  if ConsentManagement.truthy s.error then none
  else
    match s.pagination with
    | none => none
    | some p =>
      if p.totalPages > 1 then
        some { prevDisabled := decide (s.currentPage ≤ 1)
               nextDisabled := decide (s.currentPage ≥ p.totalPages) }
      else none

/-- The mounted component. -/
structure Sys where
  state : State
  pending : List Pending
  log : List Effect
deriving DecidableEq, Repr

/-- What can happen to the component. -/
inductive Event where
  /-- The search input changes to `value`. -/
  | search (value : String)
  /-- The "Previous" button calls `handlePrevPage`. -/
  | prevPage
  /-- The "Next" button calls `handleNextPage`. -/
  | nextPage
  /-- The `i`-th request in flight settles. -/
  | settle (i : Nat) (r : Reply)
deriving DecidableEq, Repr

/-- Commit a segment. -/
def commit (rest : List Pending) (log : List Effect) (seg : Seg) : Sys :=
  { state := seg.state
    pending := rest ++ seg.next.toList
    log := log ++ seg.effects }

/-- Resume the suspended `fetchPatients`. -/
def resume (p : Pending) (r : Reply) (s : State) : Seg :=
  match p, r with
  | .fetch _ _, .patients response => fetchPatients_settled (.ok response) s
  | .fetch _ _, .rejected err => fetchPatients_settled (.error err) s

/-- One event. -/
def step (σ : Sys) (e : Event) : Option Sys :=
  match e with
  | .search value =>
    some (commit σ.pending σ.log (afterUpdate σ.state (handleSearch value σ.state)))
  | .prevPage => some (commit σ.pending σ.log (afterUpdate σ.state (handlePrevPage σ.state)))
  | .nextPage => some (commit σ.pending σ.log (afterUpdate σ.state (handleNextPage σ.state)))
  | .settle i r =>
    match σ.pending[i]? with
    | none => none
    | some p => some (commit (σ.pending.eraseIdx i) σ.log (resume p r σ.state))

/-- A sequence of events, in order. -/
def run (σ : Sys) : List Event → Option Sys
  | [] => some σ
  | e :: es =>
    match step σ e with
    | none => none
    | some σ1 => run σ1 es

/-- Lines 20-25: the `useState` initial values. -/
def initialState : State :=
  { patients := []
    loading := true
    error := none
    searchTerm := ""
    currentPage := 1
    pagination := none }

/-- The component right after mounting: the effect has called `fetchPatients` once. -/
def mount : Sys :=
  commit [] [] (fetchPatients initialState.currentPage initialState.searchTerm initialState)

/-- A loaded view showing page `page` of `totalPages` (ten patients a page). -/
def atPage (page totalPages : ℤ) : State :=
  { initialState with
    loading := false
    currentPage := page
    pagination := some { page := page, limit := 10, total := 10 * totalPages,
                         totalPages := totalPages } }

end PatientList

/-!
# Copyable address

Shallow embedding of `calculateTruncation` in `src/components/CopyableAddress.js`. Widths are
CSS pixel measures; they are modelled as rationals and the arithmetic on them is exact. An
address is a string of ASCII characters, so its characters are its UTF-16 code units.
-/

namespace CopyableAddress

/-- A relative index of `String.prototype.slice`: a negative index counts from the end, and
the result is clamped to the string. -/
def relativeIndex (len : ℕ) (i : ℤ) : ℕ :=
  if i < 0 then ((len : ℤ) + i).toNat else min i.toNat len

/-- JavaScript `s.slice(start, stop)`; an absent `stop` is the end of the string. -/
def slice (s : String) (start : ℤ) (stop : Option ℤ) : String :=
  let len := s.length
  let lo := relativeIndex len start
  let hi :=
    match stop with
    | some e => relativeIndex len e
    | none => len
  String.mk ((s.data.drop lo).take (hi - lo))

/-- JavaScript `parseFloat(x) || d`: the default replaces `NaN` (here `none`) and zero. -/
def orDefault (x : Option ℚ) (d : ℚ) : ℚ :=
  match x with
  | some v => if v = 0 then d else v
  | none => d

/-- A child of the parent element as line 38-45 sees it. -/
structure Child where
  isContainer : Bool
  copyableAddress : Bool
  offsetWidth : ℚ
deriving DecidableEq, Repr

/-- Everything `calculateTruncation` reads from the document once the container, its parent
and the measuring span exist; a `parseFloat` that yields `NaN` is `none`, an element that
`querySelector` does not find is `none`. -/
structure Layout where
  parentWidth : ℚ
  parentPaddingLeft : Option ℚ
  parentPaddingRight : Option ℚ
  children : List Child
  labelOffsetWidth : Option ℚ
  iconOffsetWidth : Option ℚ
  paddingLeft : Option ℚ
  paddingRight : Option ℚ
  borderLeftWidth : Option ℚ
  borderRightWidth : Option ℚ
  gap : Option ℚ
  sampleWidth : ℚ
deriving DecidableEq, Repr

/-- Lines 37-45: the summed width of the siblings that are not copyable addresses. -/
def siblingsWidth (L : Layout) : ℚ :=
  L.children.foldl
    (fun acc child =>
      if !child.isContainer && !child.copyableAddress then acc + child.offsetWidth else acc)
    0

/-- Lines 32-70: `availableTextWidth`. -/
def availableTextWidth (L : Layout) : ℚ :=
  let parentPaddingLeft := orDefault L.parentPaddingLeft 0
  let parentPaddingRight := orDefault L.parentPaddingRight 0
  let availableParentWidth :=
    L.parentWidth - parentPaddingLeft - parentPaddingRight - siblingsWidth L - 8
  let labelWidth :=
    match L.labelOffsetWidth with
    | some w => w + 4
    | none => 0
  let iconWidth :=
    match L.iconOffsetWidth with
    | some w => w + 6
    | none => 0
  let containerPadding := orDefault L.paddingLeft 0 + orDefault L.paddingRight 0
  let containerBorder := orDefault L.borderLeftWidth 0 + orDefault L.borderRightWidth 0
  let containerGap := orDefault L.gap 4 * 2
  let fixedWidth := labelWidth + iconWidth + containerPadding + containerBorder + containerGap
  availableParentWidth - fixedWidth

/-- Lines 79-80: `charWidth`, a tenth of the width of the sample "0x00000000". -/
def charWidth (L : Layout) : ℚ :=
  L.sampleWidth / 10

/-- Lines 81-85: `maxChars`, for a non-zero `charWidth`. -/
def maxChars (L : Layout) : ℤ :=
  let ellipsisWidth := charWidth L * 3
  ⌊(availableTextWidth L - ellipsisWidth) / charWidth L⌋

/-- Lines 73-74 and 90-91: the minimum-character truncation. -/
def minTruncation (address : String) (minChars : ℤ) : String :=
  let half : ℤ := ⌊(minChars : ℚ) / 2⌋
  slice address 0 (some half) ++ "..." ++ slice address (-half) none

/-- Lines 93-99: the proportional truncation. `Math.ceil(maxChars * 0.6)` is the ceiling of
three fifths of `maxChars`: the double nearest to 0.6 lies below it, so the rounded product
never exceeds an integer it should equal. -/
def proportionalTruncation (address : String) (maxChars : ℤ) : String :=
  let startChars : ℤ := ⌈(maxChars : ℚ) * (6 / 10)⌉
  let endChars := maxChars - startChars
  slice address 0 (some (max startChars 4)) ++ "..." ++ slice address (-(max endChars 2)) none

/-- Lines 18-101: the string `calculateTruncation` passes to `setDisplayAddress`.
`containerRef` and `measureRef` say whether the refs are attached; `parent` is `none` when the
container has no parent element. With a zero `charWidth` the division of line 83 yields
`Infinity` (the numerator is positive there), which is at least `address.length`. -/
def calculateTruncation (truncate : Bool) (address : String) (minChars : ℤ)
    (containerRef measureRef : Bool) (parent : Option Layout) : String :=
  if !truncate || address = "" || !containerRef || !measureRef then address
  else
    match parent with
    | none => address
    | some L =>
      if availableTextWidth L ≤ 0 then minTruncation address minChars
      else if charWidth L = 0 then address
      else if maxChars L ≥ (address.length : ℤ) then address
      else if maxChars L < minChars then minTruncation address minChars
      else proportionalTruncation address (maxChars L)

/-- The first `n` characters of `s`. -/
def firstChars (n : ℕ) (s : String) : String :=
  String.mk (s.data.take n)

/-- The last `n` characters of `s`. -/
def lastChars (n : ℕ) (s : String) : String :=
  String.mk (s.data.drop (s.length - n))

/-- A layout with no padding, border, label or siblings: an icon 18 px wide, a gap of 4 px
and characters 10 px wide, leaving `parentWidth - 40` for the text. -/
def plainLayout (parentWidth : ℚ) : Layout :=
  { parentWidth := parentWidth
    parentPaddingLeft := some 0
    parentPaddingRight := some 0
    children := [{ isContainer := true, copyableAddress := true, offsetWidth := parentWidth }]
    labelOffsetWidth := none
    iconOffsetWidth := some 18
    paddingLeft := some 0
    paddingRight := some 0
    borderLeftWidth := some 0
    borderRightWidth := some 0
    gap := some 4
    sampleWidth := 100 }

/-- The 42-character wallet address of the gateway test fixture. -/
def sampleAddress : String := "0x1234567890abcdef1234567890abcdef12345678"

/-! ## Copying (`handleCopy`, lines 134-162)

Time is a logical clock in milliseconds: `setTimeout(f, d)` called at time `t` leaves a timer
due at `t + d`, and the callback of a pending timer runs when the clock reaches its due time.
Timer ids are fresh positive integers. -/

/-- The two kinds of timer `handleCopy` schedules. -/
inductive TimerKind where
  | pressing
  | copied
deriving DecidableEq, Repr

/-- A pending `setTimeout`: its id, the state its callback resets and the time it is due. -/
structure Timer where
  id : ℕ
  kind : TimerKind
  due : ℕ
deriving DecidableEq, Repr

/-- The state `handleCopy` reads and writes (lines 11-16); `pressingRef` and `copiedRef` are
`timeoutRefs.current.pressing` and `timeoutRefs.current.copied`. -/
structure CopyState where
  pressing : Bool
  copied : Bool
  displayAddress : String
  pressingRef : Option ℕ
  copiedRef : Option ℕ
deriving DecidableEq, Repr

/-- What `handleCopy` does to the outside world. -/
inductive CopyEffect where
  | stopPropagation
  | writeText (text : String)
  | consoleError (err : ConsentManagement.JsError)
deriving DecidableEq, Repr

/-- The mounted component as far as copying goes: the `address` prop, the state, the clock,
the next fresh timer id, the pending timers, the number of clipboard writes in flight (line
139) and the effects so far. -/
structure CopySys where
  address : String
  state : CopyState
  now : ℕ
  nextTimerId : ℕ
  timers : List Timer
  writing : ℕ
  log : List CopyEffect
deriving DecidableEq, Repr

/-- `clearTimeout(id)`. -/
def clearTimeout (id : ℕ) (timers : List Timer) : List Timer :=
  timers.filter (fun t => decide (t.id ≠ id))

/-- Lines 143-148: `if (ref) clearTimeout(ref)`; `null` and 0 are falsy. -/
def clearRef (ref : Option ℕ) (timers : List Timer) : List Timer :=
  match ref with
  | some id => if id = 0 then timers else clearTimeout id timers
  | none => timers

/-- Lines 134-139: `handleCopy` up to `await navigator.clipboard.writeText(address)`. -/
def handleCopy (σ : CopySys) : CopySys :=
  { σ with
    state := { σ.state with pressing := true }
    writing := σ.writing + 1
    log := σ.log ++ [CopyEffect.stopPropagation, CopyEffect.writeText σ.address] }

/-- Lines 140-155: after the clipboard write resolved. -/
def handleCopy_resolved (σ : CopySys) : CopySys :=
  let s1 := { σ.state with copied := true }
  let timers1 := clearRef σ.state.pressingRef σ.timers
  let timers2 := clearRef σ.state.copiedRef timers1
  let pressingId := σ.nextTimerId
  let copiedId := σ.nextTimerId + 1
  { σ with
    state := { s1 with pressingRef := some pressingId, copiedRef := some copiedId }
    timers := timers2 ++
      [{ id := pressingId, kind := TimerKind.pressing, due := σ.now + 150 },
       { id := copiedId, kind := TimerKind.copied, due := σ.now + 2000 }]
    nextTimerId := σ.nextTimerId + 2
    writing := σ.writing - 1 }

/-- Lines 156-159: after the clipboard write rejected. -/
def handleCopy_rejected (err : ConsentManagement.JsError) (σ : CopySys) : CopySys :=
  { σ with
    state := { σ.state with pressing := false }
    writing := σ.writing - 1
    log := σ.log ++ [CopyEffect.consoleError err] }

/-- The callbacks of lines 150-155: `setPressing(false)` and `setCopied(false)`. -/
def fire (t : Timer) (s : CopyState) : CopyState :=
  match t.kind with
  | .pressing => { s with pressing := false }
  | .copied => { s with copied := false }

/-- The clock advances by `dt` ms: every pending timer that is due by then runs, in order,
and is no longer pending. -/
def advance (dt : ℕ) (σ : CopySys) : CopySys :=
  let now := σ.now + dt
  { σ with
    now := now
    state := (σ.timers.filter (fun t => decide (t.due ≤ now))).foldl (fun s t => fire t s) σ.state
    timers := σ.timers.filter (fun t => decide (now < t.due)) }

/-- What can happen to the component as far as copying goes. -/
inductive CopyEvent where
  /-- The identifier is clicked. -/
  | click
  /-- A clipboard write in flight resolves. -/
  | writeResolved
  /-- A clipboard write in flight rejects. -/
  | writeRejected (err : ConsentManagement.JsError)
  /-- Time passes. -/
  | advance (dt : ℕ)
  /-- `calculateTruncation` sets a new display string. -/
  | displayChanged (display : String)
deriving DecidableEq, Repr

/-- One event. -/
def copyStep (σ : CopySys) (e : CopyEvent) : Option CopySys :=
  match e with
  | .click => some (handleCopy σ)
  | .writeResolved => if σ.writing = 0 then none else some (handleCopy_resolved σ)
  | .writeRejected err => if σ.writing = 0 then none else some (handleCopy_rejected err σ)
  | .advance dt => some (advance dt σ)
  | .displayChanged d => some { σ with state := { σ.state with displayAddress := d } }

/-- A sequence of events, in order. -/
def copyRun (σ : CopySys) : List CopyEvent → Option CopySys
  | [] => some σ
  | e :: es =>
    match copyStep σ e with
    | none => none
    | some σ1 => copyRun σ1 es

/-- Lines 11-16: the component right after mounting. -/
def copyMount (address : String) : CopySys :=
  { address := address
    state := { pressing := false, copied := false, displayAddress := address,
               pressingRef := none, copiedRef := none }
    now := 0
    nextTimerId := 1
    timers := []
    writing := 0
    log := [] }

/-- The pending timers that will revert `copied`. -/
def copiedTimers (σ : CopySys) : List Timer :=
  σ.timers.filter (fun t => decide (t.kind = TimerKind.copied))

end CopyableAddress

/-!
# Gateway client

`src/services/apiService.js` is not among the source files; only its test is. The two
request builders the list views rely on are modelled from the interface table of the
specification and from the expectations of `apiService.test.js`.
-/

namespace ApiService

/-- The value of a query parameter. -/
inductive ParamValue where
  | str (s : String)
  | num (n : ℕ)
deriving DecidableEq, Repr

/-- Modelled from the spec: `apiService.getConsents(patientId, status)`, which is not under
`src/`. Section 6: "list consents: GET with optional `patientId`, `status`"; the test
(lines 147-200) expects `params: {}` for no argument and one key for each argument given,
in this order. An argument that is `null` is left out. -/
def getConsentsParams (patientId status : Option String) : List (String × ParamValue) :=
  (match patientId with
    | some p => [("patientId", ParamValue.str p)]
    | none => [])
  ++ (match status with
    | some s => [("status", ParamValue.str s)]
    | none => [])

/-- Modelled from the spec: `apiService.getTransactions(walletAddress, limit)`, which is not
under `src/`. Section 6: "list transactions: GET with optional `walletAddress`, `limit`
(default 20)"; the test (lines 318-344) expects `params: { limit: 20 }` without address and
`params: { limit: 20, walletAddress }` with one. An address that is `null` is left out. -/
def getTransactionsParams (walletAddress : Option String) (limit : ℕ) :
    List (String × ParamValue) :=
  [("limit", ParamValue.num limit)]
  ++ (match walletAddress with
    | some w => [("walletAddress", ParamValue.str w)]
    | none => [])

end ApiService

/-! ## Theorems: consent creation -/

namespace ConsentManagement

/-- The continuation queued last is found at index `length`. -/
theorem getElem?_snoc {α : Type} (l : List α) (p : α) : (l ++ [p])[l.length]? = some p := by
  induction l with
  | nil => rfl
  | cons x xs ih => simp [ih]

/-- Removing the continuation queued last restores the queue. -/
theorem eraseIdx_snoc {α : Type} (l : List α) (p : α) : (l ++ [p]).eraseIdx l.length = l := by
  induction l with
  | nil => rfl
  | cons x xs ih => simp [List.eraseIdx, ih]

/-- A falsy `account` is `null` or the empty string. -/
theorem truthy_false_iff (account : Option String) :
    truthy account = false ↔ account = none ∨ account = some "" := by
  cases account with
  | none => simp [truthy]
  | some a => simp [truthy]

/-- A truthy `account` is a non-empty string. -/
theorem truthy_true_iff (account : Option String) :
    truthy account = true ↔ ∃ a, account = some a ∧ a ≠ "" := by
  cases account with
  | none => simp [truthy]
  | some a => simp [truthy]

/-- C1: when the create form is submitted with no connected account (null or empty), whatever
the form holds, the handler only prevents the default and shows "Please connect your wallet
first": it emits no signing request and no gateway request, queues no continuation and leaves
the whole state (creating, formData, consents included) unchanged. The account check comes
first: the outcome is the same when the fields are empty. -/
theorem C1_no_account_prompts_wallet (σ : Sys) (h : truthy σ.account = false) :
    step σ Event.submit
        = some { σ with log := σ.log ++
            [Effect.preventDefault, Effect.alert "Please connect your wallet first"] }
      ∧ (handleCreateConsent σ.account σ.state).state = σ.state
      ∧ (handleCreateConsent σ.account σ.state).next = none
      ∧ (handleCreateConsent σ.account σ.state).effects.filter
          (fun e => e.isSign || e.isGateway) = []
      ∧ Effect.alert "Please connect your wallet first"
          ∈ (handleCreateConsent σ.account σ.state).effects := by
  obtain ⟨account, s, pending, log⟩ := σ
  rcases (truthy_false_iff account).1 h with rfl | rfl <;>
    simp [step, commit, handleCreateConsent, Effect.isSign, Effect.isGateway]

/-- C1 at a concrete input: a freshly mounted component without account, with empty form. -/
theorem C1_no_account_prompts_wallet_witness :
    truthy (mount none).account = false
      ∧ step (mount none) Event.submit
        = some { mount none with log := (mount none).log ++
            [Effect.preventDefault, Effect.alert "Please connect your wallet first"] } :=
  ⟨by decide, (C1_no_account_prompts_wallet (mount none) (by decide)).1⟩

/-- C2: with a connected account and an empty patientId or an empty purpose, the handler only
prevents the default and shows "Please fill in all fields": it emits no signing request and no
gateway request, queues no continuation and leaves the whole state (formData and creating
included) unchanged. -/
theorem C2_empty_field_reports_validation (σ : Sys) (hacc : truthy σ.account = true)
    (hempty : σ.state.formData.patientId = "" ∨ σ.state.formData.purpose = "") :
    step σ Event.submit
        = some { σ with log := σ.log ++
            [Effect.preventDefault, Effect.alert "Please fill in all fields"] }
      ∧ (handleCreateConsent σ.account σ.state).state = σ.state
      ∧ (handleCreateConsent σ.account σ.state).next = none
      ∧ (handleCreateConsent σ.account σ.state).effects.filter
          (fun e => e.isSign || e.isGateway) = []
      ∧ Effect.alert "Please fill in all fields"
          ∈ (handleCreateConsent σ.account σ.state).effects := by
  obtain ⟨account, s, pending, log⟩ := σ
  obtain ⟨a, rfl, ha⟩ := (truthy_true_iff account).1 hacc
  simp only at hempty
  simp [step, commit, handleCreateConsent, Effect.isSign, Effect.isGateway, ha, hempty]

/-- C2 at a concrete input: connected account, patientId filled in, purpose left empty. -/
theorem C2_empty_field_reports_validation_witness :
    step { mount (some "0xabc") with
            state := handleFormChange Field.patientId "patient-001" initialState } Event.submit
      = some { mount (some "0xabc") with
            state := handleFormChange Field.patientId "patient-001" initialState
            log := [Effect.getConsents none none, Effect.preventDefault,
              Effect.alert "Please fill in all fields"] } :=
  (C2_empty_field_reports_validation
    { mount (some "0xabc") with
        state := handleFormChange Field.patientId "patient-001" initialState }
    (by decide) (Or.inr (by decide))).1

/-- C3: with a connected account and both fields non-empty, the handler issues exactly one
signing request and its argument is exactly
"I consent to: " ++ purpose ++ " for patient: " ++ patientId; for the purpose
"Research Study Participation" and the patient "patient-001" that is
"I consent to: Research Study Participation for patient: patient-001". -/
theorem C3_signed_message_exact (σ : Sys) (hacc : truthy σ.account = true)
    (hpid : σ.state.formData.patientId ≠ "") (hpur : σ.state.formData.purpose ≠ "") :
    (handleCreateConsent σ.account σ.state).effects
        = [Effect.preventDefault,
           Effect.signMessage ("I consent to: " ++ σ.state.formData.purpose
              ++ " for patient: " ++ σ.state.formData.patientId)]
      ∧ (σ.state.formData = { patientId := "patient-001",
                              purpose := "Research Study Participation" } →
          (handleCreateConsent σ.account σ.state).effects.filter Effect.isSign
            = [Effect.signMessage
                "I consent to: Research Study Participation for patient: patient-001"]) := by
  obtain ⟨account, s, pending, log⟩ := σ
  obtain ⟨a, rfl, ha⟩ := (truthy_true_iff account).1 hacc
  simp only [ne_eq] at hpid hpur
  refine ⟨by simp [handleCreateConsent, consentMessage, ha, hpid, hpur], ?_⟩
  intro hform
  simp only at hform
  simp [handleCreateConsent, consentMessage, ha, hform, Effect.isSign]

/-- C3 at the golden input: purpose "Research Study Participation", patient "patient-001". -/
theorem C3_signed_message_exact_witness :
    (handleCreateConsent (some "0xabc")
        { initialState with
            formData := { patientId := "patient-001",
                          purpose := "Research Study Participation" } }).effects.filter
        Effect.isSign
      = [Effect.signMessage
          "I consent to: Research Study Participation for patient: patient-001"] :=
  (C3_signed_message_exact
    { mount (some "0xabc") with
        state := { initialState with
          formData := { patientId := "patient-001",
                        purpose := "Research Study Participation" } } }
    (by decide) (by decide) (by decide)).2 rfl

/-- A valid submission: the state gets `creating = true`, the signing request is emitted and
the suspended handler is queued with the form, account and filter it captured. -/
theorem step_submit_valid (σ : Sys) (a : String) (hacc : σ.account = some a) (ha : a ≠ "")
    (hpid : σ.state.formData.patientId ≠ "") (hpur : σ.state.formData.purpose ≠ "") :
    step σ Event.submit
      = some { account := σ.account
               state := { σ.state with creating := true }
               pending := σ.pending ++ [Pending.sign σ.state.formData a σ.state.filterStatus]
               log := σ.log ++ [Effect.preventDefault,
                  Effect.signMessage (consentMessage σ.state.formData)] } := by
  obtain ⟨account, s, pending, log⟩ := σ
  simp only at hacc hpid hpur
  subst hacc
  simp [step, commit, handleCreateConsent, ha, hpid, hpur]

/-- C4: a valid submission followed by a successful signature submits exactly one payload to
the gateway's create operation: patientId and purpose are the form's, walletAddress is the
account passed to the component and signature is the value the wallet returned, unchanged. -/
theorem C4_create_payload (σ : Sys) (a sig : String) (hacc : σ.account = some a)
    (ha : a ≠ "") (hpid : σ.state.formData.patientId ≠ "")
    (hpur : σ.state.formData.purpose ≠ "") :
    ∃ σ2, run σ [Event.submit, Event.settle σ.pending.length (Reply.signature sig)] = some σ2
      ∧ σ2.log = σ.log ++
          [Effect.preventDefault,
           Effect.signMessage (consentMessage σ.state.formData),
           Effect.createConsent
             { patientId := σ.state.formData.patientId
               purpose := σ.state.formData.purpose
               walletAddress := a
               signature := sig }]
      ∧ (σ2.log.drop σ.log.length).filter Effect.isCreate
          = [Effect.createConsent
             { patientId := σ.state.formData.patientId
               purpose := σ.state.formData.purpose
               walletAddress := a
               signature := sig }]
      ∧ σ2.pending = σ.pending ++ [Pending.create σ.state.filterStatus] := by
  simp only [run, step_submit_valid σ a hacc ha hpid hpur]
  simp [step, getElem?_snoc, eraseIdx_snoc, resume, handleCreateConsent_signed, commit,
    Effect.isCreate]

/-- C4 at a concrete input: the payload of the gateway's test. -/
theorem C4_create_payload_witness :
    ∃ σ2, run { mount (some "0x1234567890abcdef") with
                  state := { initialState with
                    formData := { patientId := "patient-001",
                                  purpose := "Research Study Participation" } } }
              [Event.submit, Event.settle 1 (Reply.signature "0xsignature123")] = some σ2
      ∧ (σ2.log.drop 1).filter Effect.isCreate
          = [Effect.createConsent
             { patientId := "patient-001"
               purpose := "Research Study Participation"
               walletAddress := "0x1234567890abcdef"
               signature := "0xsignature123" }] := by
  obtain ⟨σ2, h1, _, h3, _⟩ := C4_create_payload
    { mount (some "0x1234567890abcdef") with
        state := { initialState with
          formData := { patientId := "patient-001",
                        purpose := "Research Study Participation" } } }
    "0x1234567890abcdef" "0xsignature123" rfl (by decide) (by decide) (by decide)
  exact ⟨σ2, h1, h3⟩

/-- C5: when the wallet rejects the signing request of a valid submission, the user is shown
"Failed to create consent: " followed by the failure's message; no gateway request (no create,
no list fetch) is emitted, no continuation stays queued, formData and the consent list are as
before and creating is false. -/
theorem C5_signature_denied (σ : Sys) (a : String) (err : JsError) (hacc : σ.account = some a)
    (ha : a ≠ "") (hpid : σ.state.formData.patientId ≠ "")
    (hpur : σ.state.formData.purpose ≠ "") :
    ∃ σ2, run σ [Event.submit, Event.settle σ.pending.length (Reply.rejected err)] = some σ2
      ∧ σ2.log = σ.log ++
          [Effect.preventDefault,
           Effect.signMessage (consentMessage σ.state.formData),
           Effect.alert ("Failed to create consent: " ++ err.message)]
      ∧ (σ2.log.drop σ.log.length).filter Effect.isGateway = []
      ∧ σ2.pending = σ.pending
      ∧ σ2.state = { σ.state with creating := false } := by
  simp only [run, step_submit_valid σ a hacc ha hpid hpur]
  simp [step, getElem?_snoc, eraseIdx_snoc, resume, handleCreateConsent_signed, commit,
    Effect.isGateway]

/-- C5 at a concrete input: the wallet answers "User rejected the request". -/
theorem C5_signature_denied_witness :
    ∃ σ2, run { mount (some "0xabc") with
                  state := { initialState with
                    formData := { patientId := "patient-001",
                                  purpose := "Research Study Participation" } } }
              [Event.submit,
               Event.settle 1 (Reply.rejected { message := "User rejected the request" })]
            = some σ2
      ∧ (σ2.log.drop 1).filter Effect.isGateway = []
      ∧ σ2.state.creating = false := by
  obtain ⟨σ2, h1, _, h3, _, h5⟩ := C5_signature_denied
    { mount (some "0xabc") with
        state := { initialState with
          formData := { patientId := "patient-001",
                        purpose := "Research Study Participation" } } }
    "0xabc" { message := "User rejected the request" } rfl (by decide) (by decide) (by decide)
  exact ⟨σ2, h1, h3, by rw [h5]⟩

/-- A valid submission whose signature arrives: the create request is in flight. -/
theorem run_submit_signed (σ : Sys) (a sig : String) (hacc : σ.account = some a) (ha : a ≠ "")
    (hpid : σ.state.formData.patientId ≠ "") (hpur : σ.state.formData.purpose ≠ "") :
    run σ [Event.submit, Event.settle σ.pending.length (Reply.signature sig)]
      = some { account := σ.account
               state := { σ.state with creating := true }
               pending := σ.pending ++ [Pending.create σ.state.filterStatus]
               log := σ.log ++
                 [Effect.preventDefault,
                  Effect.signMessage (consentMessage σ.state.formData),
                  Effect.createConsent
                    { patientId := σ.state.formData.patientId
                      purpose := σ.state.formData.purpose
                      walletAddress := a
                      signature := sig }] } := by
  simp only [run, step_submit_valid σ a hacc ha hpid hpur]
  simp [step, getElem?_snoc, eraseIdx_snoc, resume, handleCreateConsent_signed, commit]

/-- Running a sequence of events and then one more. -/
theorem run_append (σ : Sys) (es fs : List Event) :
    run σ (es ++ fs) = (run σ es).bind (fun σ1 => run σ1 fs) := by
  induction es generalizing σ with
  | nil => rfl
  | cons e es ih =>
    simp only [List.cons_append, run]
    cases step σ e with
    | none => rfl
    | some σ1 => exact ih σ1

/-- A valid submission, signed, whose create request the gateway rejects. -/
theorem run_submit_signed_rejected (σ : Sys) (a sig : String) (err : JsError)
    (hacc : σ.account = some a) (ha : a ≠ "")
    (hpid : σ.state.formData.patientId ≠ "") (hpur : σ.state.formData.purpose ≠ "") :
    run σ [Event.submit, Event.settle σ.pending.length (Reply.signature sig),
           Event.settle σ.pending.length (Reply.rejected err)]
      = some { account := σ.account
               state := { σ.state with creating := false }
               pending := σ.pending
               log := σ.log ++
                 [Effect.preventDefault,
                  Effect.signMessage (consentMessage σ.state.formData),
                  Effect.createConsent
                    { patientId := σ.state.formData.patientId
                      purpose := σ.state.formData.purpose
                      walletAddress := a
                      signature := sig },
                  Effect.alert ("Failed to create consent: " ++ err.message)] } := by
  have h := run_append σ [Event.submit, Event.settle σ.pending.length (Reply.signature sig)]
    [Event.settle σ.pending.length (Reply.rejected err)]
  simp only [List.cons_append, List.nil_append] at h
  rw [h, run_submit_signed σ a sig hacc ha hpid hpur]
  simp [run, step, getElem?_snoc, eraseIdx_snoc, resume, handleCreateConsent_created, commit]

/-- C6: when the gateway rejects the create request of a valid, signed submission, the user is
shown "Failed to create consent: " followed by the gateway's message; formData, showCreateForm
and the consent list are as they were at submission, no list fetch is emitted, nothing stays
queued and creating is false, so the same form can be submitted again. -/
theorem C6_create_failure_keeps_form (σ : Sys) (a sig : String) (err : JsError)
    (hacc : σ.account = some a) (ha : a ≠ "")
    (hpid : σ.state.formData.patientId ≠ "") (hpur : σ.state.formData.purpose ≠ "") :
    ∃ σ3, run σ [Event.submit, Event.settle σ.pending.length (Reply.signature sig),
                 Event.settle σ.pending.length (Reply.rejected err)] = some σ3
      ∧ σ3.log.drop (σ.log.length + 3)
          = [Effect.alert ("Failed to create consent: " ++ err.message)]
      ∧ (σ3.log.drop σ.log.length).filter Effect.isFetch = []
      ∧ σ3.state.formData = σ.state.formData
      ∧ σ3.state.showCreateForm = σ.state.showCreateForm
      ∧ σ3.state.consents = σ.state.consents
      ∧ σ3.state.creating = false
      ∧ σ3.pending = σ.pending := by
  refine ⟨_, run_submit_signed_rejected σ a sig err hacc ha hpid hpur, ?_, ?_, rfl, rfl, rfl,
    rfl, rfl⟩
  · simp [List.drop_append]
  · simp [Effect.isFetch]

/-- C6 at a concrete input: the gateway answers "Invalid signature". -/
theorem C6_create_failure_keeps_form_witness :
    ∃ σ3, run { mount (some "0x123") with
                  state := { initialState with
                    showCreateForm := true
                    formData := { patientId := "patient-001", purpose := "Research" } } }
              [Event.submit, Event.settle 1 (Reply.signature "invalid"),
               Event.settle 1 (Reply.rejected { message := "Invalid signature" })] = some σ3
      ∧ σ3.log.drop 4 = [Effect.alert "Failed to create consent: Invalid signature"]
      ∧ σ3.state.formData = { patientId := "patient-001", purpose := "Research" }
      ∧ σ3.state.showCreateForm = true
      ∧ σ3.state.creating = false := by
  obtain ⟨σ3, h1, h2, _, h4, h5, _, h7, _⟩ := C6_create_failure_keeps_form
    { mount (some "0x123") with
        state := { initialState with
          showCreateForm := true
          formData := { patientId := "patient-001", purpose := "Research" } } }
    "0x123" "invalid" { message := "Invalid signature" } rfl (by decide) (by decide) (by decide)
  exact ⟨σ3, h1, h2, h4, h5, h7⟩

/-- C7 fails as stated: after the first list fetch settles, the form is opened and filled in,
submitted, signed ("0xsig1") and rejected by the gateway ("Server Error"); submitting the
unchanged form again sends a second signing request to the wallet. -/
theorem C7_retry_signs_again_counterexample :
    (run (mount (some "0xabc"))
        [Event.settle 0 (Reply.consents (some { consents := some [] })),
         Event.toggleForm,
         Event.formChange Field.patientId "patient-001",
         Event.formChange Field.purpose "Research Study Participation",
         Event.submit,
         Event.settle 0 (Reply.signature "0xsig1"),
         Event.settle 0 (Reply.rejected { message := "Server Error" }),
         Event.submit]).map (fun σ => (σ.log.drop 5, signCount σ.log, σ.pending))
      = some
          ([Effect.preventDefault,
            Effect.signMessage
              "I consent to: Research Study Participation for patient: patient-001"],
           2,
           [Pending.sign { patientId := "patient-001", purpose := "Research Study Participation" }
              "0xabc" "all"]) := by
  decide

/-- C7 (amended): after a valid submission whose create request the gateway rejected,
submitting the unchanged form again emits a new signing request over the same message, and
the payload of the retry carries the signature returned to that new request; the signature of
the first attempt is not kept anywhere. -/
theorem C7_retry_requests_new_signature (σ : Sys) (a sig1 sig2 : String) (err : JsError)
    (hacc : σ.account = some a) (ha : a ≠ "")
    (hpid : σ.state.formData.patientId ≠ "") (hpur : σ.state.formData.purpose ≠ "") :
    ∃ σ5, run σ [Event.submit,
                 Event.settle σ.pending.length (Reply.signature sig1),
                 Event.settle σ.pending.length (Reply.rejected err),
                 Event.submit,
                 Event.settle σ.pending.length (Reply.signature sig2)] = some σ5
      ∧ σ5.log.drop (σ.log.length + 4)
          = [Effect.preventDefault,
             Effect.signMessage (consentMessage σ.state.formData),
             Effect.createConsent
               { patientId := σ.state.formData.patientId
                 purpose := σ.state.formData.purpose
                 walletAddress := a
                 signature := sig2 }]
      ∧ signCount (σ5.log.drop σ.log.length) = 2 := by
  have h := run_append σ
    [Event.submit, Event.settle σ.pending.length (Reply.signature sig1),
     Event.settle σ.pending.length (Reply.rejected err)]
    [Event.submit, Event.settle σ.pending.length (Reply.signature sig2)]
  simp only [List.cons_append, List.nil_append] at h
  rw [h, run_submit_signed_rejected σ a sig1 err hacc ha hpid hpur]
  simp only [Option.some_bind]
  refine ⟨_, run_submit_signed ⟨σ.account, { σ.state with creating := false }, σ.pending, _⟩
    a sig2 hacc ha hpid hpur, ?_, ?_⟩
  · simp [List.drop_append]
  · simp [signCount, Effect.isSign]

/-- C7 (amended) at a concrete input. -/
theorem C7_retry_requests_new_signature_witness :
    ∃ σ5, run { mount (some "0xabc") with
                  state := { initialState with
                    showCreateForm := true
                    formData := { patientId := "patient-001",
                                  purpose := "Research Study Participation" } } }
              [Event.submit,
               Event.settle 1 (Reply.signature "0xsig1"),
               Event.settle 1 (Reply.rejected { message := "Server Error" }),
               Event.submit,
               Event.settle 1 (Reply.signature "0xsig2")] = some σ5
      ∧ signCount (σ5.log.drop 1) = 2 := by
  obtain ⟨σ5, h1, _, h3⟩ := C7_retry_requests_new_signature
    { mount (some "0xabc") with
        state := { initialState with
          showCreateForm := true
          formData := { patientId := "patient-001",
                        purpose := "Research Study Participation" } } }
    "0xabc" "0xsig1" "0xsig2" { message := "Server Error" } rfl (by decide) (by decide)
    (by decide)
  exact ⟨σ5, h1, h3⟩

/-! ## Theorems: list fetches and status updates -/

/-- The older of the two continuations queued last. -/
theorem getElem?_snoc_snoc_fst {α : Type} (l : List α) (p q : α) :
    (l ++ [p, q])[l.length]? = some p := by
  induction l with
  | nil => rfl
  | cons x xs ih => simpa using ih

/-- The newer of the two continuations queued last. -/
theorem getElem?_snoc_snoc_snd {α : Type} (l : List α) (p q : α) :
    (l ++ [p, q])[l.length + 1]? = some q := by
  induction l with
  | nil => rfl
  | cons x xs ih => simpa using ih

/-- Removing the older of the two continuations queued last. -/
theorem eraseIdx_snoc_snoc_fst {α : Type} (l : List α) (p q : α) :
    (l ++ [p, q]).eraseIdx l.length = l ++ [q] := by
  induction l with
  | nil => rfl
  | cons x xs ih => simpa [List.eraseIdx] using ih

/-- Removing the newer of the two continuations queued last. -/
theorem eraseIdx_snoc_snoc_snd {α : Type} (l : List α) (p q : α) :
    (l ++ [p, q]).eraseIdx (l.length + 1) = l ++ [p] := by
  induction l with
  | nil => rfl
  | cons x xs ih => simpa [List.eraseIdx] using ih

/-- Switching the filter first to "pending" and then to "active" leaves two list requests in
flight, queued in that order. -/
theorem run_filter_pending_active (σ : Sys) (hne : σ.state.filterStatus ≠ "pending") :
    run σ [Event.filter "pending", Event.filter "active"]
      = some { account := σ.account
               state := { σ.state with
                 loading := if σ.state.initialLoadedRef then σ.state.loading else true
                 error := none
                 filterStatus := "active" }
               pending := σ.pending ++ [Pending.fetch "pending" Caller.effect,
                 Pending.fetch "active" Caller.effect]
               log := σ.log ++ [Effect.getConsents none (some "pending"),
                 Effect.getConsents none (some "active")] } := by
  obtain ⟨account, s, pending, log⟩ := σ
  simp only [ne_eq] at hne
  have hne2 : ¬ ("pending" = s.filterStatus) := fun h => hne h.symm
  cases hl : s.initialLoadedRef <;>
    simp [run, step, commit, setFilterStatus, fetchConsents, statusParam, hne2, hl]

/-- C8 fails as stated: "pending" is selected, then "active" before the first request settles;
the "active" response (consent-001) arrives first and the "pending" response (consent-002)
second. The filter is "active" and the displayed list is the "pending" response. -/
theorem C8_stale_response_applied_counterexample :
    (run (mount none)
        [Event.settle 0 (Reply.consents (some { consents := some [consent001, consent002] })),
         Event.filter "pending",
         Event.filter "active",
         Event.settle 1 (Reply.consents (some { consents := some [consent001] })),
         Event.settle 0 (Reply.consents (some { consents := some [consent002] }))]).map
        (fun σ => (σ.state.filterStatus, σ.state.consents, σ.pending, σ.log))
      = some ("active", [consent002], [],
          [Effect.getConsents none none,
           Effect.getConsents none (some "pending"),
           Effect.getConsents none (some "active")])
    ∧ [consent002] ≠ consentsOf (some { consents := some [consent001] }) := by
  decide

/-- C8 (amended): a list response is applied to the displayed list when it settles, whether or
not the filter it was requested under is still the current one. With "pending" and then
"active" dispatched before either settles, the list after both have settled is the response
that settled last: the "active" response when the "pending" request settles first, the
"pending" response when the "active" request settles first. -/
theorem C8_last_settled_response_shown (σ : Sys) (rp ra : Option ConsentsResponse)
    (hne : σ.state.filterStatus ≠ "pending") :
    (∃ σ4, run σ [Event.filter "pending", Event.filter "active",
                  Event.settle σ.pending.length (Reply.consents rp),
                  Event.settle σ.pending.length (Reply.consents ra)] = some σ4
        ∧ σ4.state.filterStatus = "active"
        ∧ σ4.state.consents = consentsOf ra
        ∧ σ4.pending = σ.pending)
      ∧ (∃ σ4, run σ [Event.filter "pending", Event.filter "active",
                  Event.settle (σ.pending.length + 1) (Reply.consents ra),
                  Event.settle σ.pending.length (Reply.consents rp)] = some σ4
        ∧ σ4.state.filterStatus = "active"
        ∧ σ4.state.consents = consentsOf rp
        ∧ σ4.pending = σ.pending)
      ∧ (∀ (f : String) (c : Caller) (s : State) (r : Option ConsentsResponse),
          ∃ seg, resume (Pending.fetch f c) (Reply.consents r) s = some seg
            ∧ seg.state.consents = consentsOf r) := by
  refine ⟨?_, ?_, ?_⟩
  · have h := run_append σ [Event.filter "pending", Event.filter "active"]
      [Event.settle σ.pending.length (Reply.consents rp),
       Event.settle σ.pending.length (Reply.consents ra)]
    simp only [List.cons_append, List.nil_append] at h
    rw [h, run_filter_pending_active σ hne]
    simp only [Option.some_bind, run, step, getElem?_snoc_snoc_fst, eraseIdx_snoc_snoc_fst,
      resume, fetchConsents_settled, commit, Option.toList, List.append_nil, getElem?_snoc,
      eraseIdx_snoc]
    simp
  · have h := run_append σ [Event.filter "pending", Event.filter "active"]
      [Event.settle (σ.pending.length + 1) (Reply.consents ra),
       Event.settle σ.pending.length (Reply.consents rp)]
    simp only [List.cons_append, List.nil_append] at h
    rw [h, run_filter_pending_active σ hne]
    simp only [Option.some_bind, run, step, getElem?_snoc_snoc_snd, eraseIdx_snoc_snoc_snd,
      resume, fetchConsents_settled, commit, Option.toList, List.append_nil, getElem?_snoc,
      eraseIdx_snoc]
    simp
  · intro f c s r
    cases c <;> simp [resume, fetchConsents_settled]

/-- C8 (amended) at a concrete input: the first list fetch has settled, then the two orders. -/
theorem C8_last_settled_response_shown_witness :
    (∃ σ4, run { mount none with pending := [] }
            [Event.filter "pending", Event.filter "active",
             Event.settle 0 (Reply.consents (some { consents := some [consent002] })),
             Event.settle 0 (Reply.consents (some { consents := some [consent001] }))] = some σ4
        ∧ σ4.state.consents = [consent001])
      ∧ (∃ σ4, run { mount none with pending := [] }
            [Event.filter "pending", Event.filter "active",
             Event.settle 1 (Reply.consents (some { consents := some [consent001] })),
             Event.settle 0 (Reply.consents (some { consents := some [consent002] }))] = some σ4
        ∧ σ4.state.consents = [consent002]) := by
  obtain ⟨⟨σ4, h1, _, h3, _⟩, ⟨σ4b, k1, _, k3, _⟩, _⟩ := C8_last_settled_response_shown
    { mount none with pending := [] }
    (some { consents := some [consent002] }) (some { consents := some [consent001] })
    (by decide)
  exact ⟨⟨σ4, h1, h3⟩, ⟨σ4b, k1, k3⟩⟩

/-- Settling the `i`-th await: the continuation found there is resumed and removed. -/
theorem step_settle (σ : Sys) (i : Nat) (r : Reply) (p : Pending) (seg : Seg)
    (hp : σ.pending[i]? = some p) (hr : resume p r σ.state = some seg) :
    step σ (Event.settle i r) = some (commit σ.account (σ.pending.eraseIdx i) σ.log seg) := by
  simp only [step, hp, hr]

/-- No segment of `fetchConsents` before its await touches the consent list. -/
theorem fetchConsents_consents (f : String) (c : Caller) (s : State) :
    (fetchConsents f c s).state.consents = s.consents := by
  cases h : s.initialLoadedRef <;> simp [fetchConsents, h]

/-- C10: for every consent id, every requested status and every state of the view (so whatever
status the consent has), `handleUpdateStatus` emits exactly one gateway update request for
that id with the body that holds only `status: newStatus`, and nothing else; no check of the
transition is made. -/
theorem C10_update_request_unconditional (σ : Sys) (consentId newStatus : String) :
    step σ (Event.updateStatus consentId newStatus)
        = some { σ with
            pending := σ.pending ++ [Pending.update σ.state.filterStatus]
            log := σ.log ++
              [Effect.updateConsent consentId
                { status := newStatus, blockchainTxHash := none }] }
      ∧ (handleUpdateStatus consentId newStatus σ.state).effects
          = [Effect.updateConsent consentId { status := newStatus, blockchainTxHash := none }]
      ∧ ((handleUpdateStatus consentId newStatus σ.state).effects.filter
          Effect.isUpdate).length = 1 := by
  simp [step, commit, handleUpdateStatus, Effect.isUpdate]

/-- C11: when the gateway rejects the update request, the user is shown "Failed to update
consent: " followed by the gateway's message and nothing else happens: the whole state
(consent list, error, loading, filter, form) and the queue are as before the call and no list
fetch is emitted. -/
theorem C11_update_failure_alters_nothing (σ : Sys) (consentId newStatus : String)
    (err : JsError) :
    run σ [Event.updateStatus consentId newStatus,
           Event.settle σ.pending.length (Reply.rejected err)]
        = some { σ with log := σ.log ++
            [Effect.updateConsent consentId { status := newStatus, blockchainTxHash := none },
             Effect.alert ("Failed to update consent: " ++ err.message)] }
      ∧ (handleUpdateStatus_updated σ.state.filterStatus (Except.error err) σ.state).state
          = σ.state
      ∧ (handleUpdateStatus_updated σ.state.filterStatus (Except.error err)
          σ.state).effects.filter Effect.isFetch = [] := by
  refine ⟨?_, rfl, ?_⟩
  · simp only [run, step, handleUpdateStatus, commit, Option.toList, getElem?_snoc,
      eraseIdx_snoc, resume, handleUpdateStatus_updated]
    simp
  · simp [handleUpdateStatus_updated, Effect.isFetch]

/-- C12: a consent card offers controls exactly when the consent's status is "pending" and an
account is connected; a card with any other status offers none. The controls offered call
`handleUpdateStatus` with the card's id and "active" or "revoked", and every such control of
the whole view belongs to a consent of the list whose status is "pending". -/
theorem C12_controls_only_for_pending (σ : Sys) (c : Consent) :
    (consentActions σ.account c ≠ [] ↔ c.status = "pending" ∧ truthy σ.account = true)
      ∧ (c.status ≠ "pending" → consentActions σ.account c = [])
      ∧ (∀ ctl ∈ consentActions σ.account c,
          ctl.onClick = Event.updateStatus c.id "active"
            ∨ ctl.onClick = Event.updateStatus c.id "revoked")
      ∧ (∀ ctl ∈ renderedActions σ, ∃ d ∈ σ.state.consents,
          d.status = "pending" ∧ truthy σ.account = true
            ∧ (ctl.onClick = Event.updateStatus d.id "active"
                ∨ ctl.onClick = Event.updateStatus d.id "revoked")) := by
  have key : ∀ (d : Consent) (ctl : Control), ctl ∈ consentActions σ.account d →
      d.status = "pending" ∧ truthy σ.account = true
        ∧ (ctl.onClick = Event.updateStatus d.id "active"
            ∨ ctl.onClick = Event.updateStatus d.id "revoked") := by
    intro d ctl hctl
    unfold consentActions at hctl
    split at hctl
    · rename_i hp
      refine ⟨hp.1, hp.2, ?_⟩
      simp only [List.mem_cons, List.mem_singleton, List.not_mem_nil, or_false] at hctl
      rcases hctl with rfl | rfl
      · exact Or.inl rfl
      · exact Or.inr rfl
    · simp at hctl
  refine ⟨?_, ?_, ?_, ?_⟩
  · unfold consentActions
    split
    · rename_i hp
      simp [hp.1, hp.2]
    · rename_i hp
      simpa using hp
  · intro hne
    simp [consentActions, hne]
  · intro ctl hctl
    exact (key c ctl hctl).2.2
  · intro ctl hctl
    unfold renderedActions at hctl
    split at hctl
    · simp at hctl
    · simp only [List.mem_flatten, List.mem_map] at hctl
      obtain ⟨l, ⟨d, hd, rfl⟩, hmem⟩ := hctl
      exact ⟨d, hd, key d ctl hmem⟩

/-- C12 at a concrete input: the active consent of the test fixture offers no control. -/
theorem C12_controls_only_for_pending_witness :
    consentActions (mount (some "0xabc")).account consent001 = [] :=
  (C12_controls_only_for_pending (mount (some "0xabc")) consent001).2.1 (by decide)

end ConsentManagement

/-! ## Theorems: the shared list-view contract -/

namespace ListViews

/-- C13: in the consents, transactions and patients views a failed list fetch sets `error` to
the failure's message and `loading` to false and leaves the items list as it was; starting the
fetch does not touch the items either, so the list keeps the value it had before the fetch. -/
theorem C13_fetch_failure_keeps_items (err : ConsentManagement.JsError) :
    (∀ (f : String) (c : ConsentManagement.Caller) (s : ConsentManagement.State),
        (ConsentManagement.fetchConsents f c s).state.consents = s.consents
          ∧ (ConsentManagement.fetchConsents_settled c (Except.error err) s).state.error = some err.message
          ∧ (ConsentManagement.fetchConsents_settled c (Except.error err) s).state.loading = false
          ∧ (ConsentManagement.fetchConsents_settled c (Except.error err) s).state.consents = s.consents)
      ∧ (∀ (a : Option String) (fe : Bool) (s : TransactionHistory.State),
        (TransactionHistory.fetchTransactions a fe s).state.transactions = s.transactions
          ∧ (TransactionHistory.fetchTransactions_settled (Except.error err) s).state.error
              = some err.message
          ∧ (TransactionHistory.fetchTransactions_settled (Except.error err) s).state.loading
              = false
          ∧ (TransactionHistory.fetchTransactions_settled (Except.error err)
              s).state.transactions = s.transactions)
      ∧ (∀ (p : ℤ) (t : String) (s : PatientList.State),
        (PatientList.fetchPatients p t s).state.patients = s.patients
          ∧ (PatientList.fetchPatients_settled (Except.error err) s).state.error
              = some err.message
          ∧ (PatientList.fetchPatients_settled (Except.error err) s).state.loading = false
          ∧ (PatientList.fetchPatients_settled (Except.error err) s).state.patients
              = s.patients) := by
  refine ⟨?_, ?_, ?_⟩
  · intro f c s
    refine ⟨ConsentManagement.fetchConsents_consents f c s, ?_, ?_, ?_⟩ <;>
      cases c <;> simp [ConsentManagement.fetchConsents_settled]
  · intro a fe s
    refine ⟨?_, ?_, ?_, ?_⟩
    · cases h : s.initialLoadedRef <;> simp [TransactionHistory.fetchTransactions, h]
    · simp [TransactionHistory.fetchTransactions_settled]
    · simp [TransactionHistory.fetchTransactions_settled]
    · simp [TransactionHistory.fetchTransactions_settled]
  · intro p t s
    simp [PatientList.fetchPatients, PatientList.fetchPatients_settled]

/-- Consents view: an event never resets the has-loaded-once flag, and keeps the fact that
`loading` is false once the flag is set. -/
theorem consents_step_flag (σ τ : ConsentManagement.Sys) (e : ConsentManagement.Event)
    (h : ConsentManagement.step σ e = some τ) :
    (σ.state.initialLoadedRef = true → τ.state.initialLoadedRef = true)
      ∧ ((σ.state.initialLoadedRef = true → σ.state.loading = false) →
          (τ.state.initialLoadedRef = true → τ.state.loading = false)) := by
  obtain ⟨account, ⟨consents, loading, error, filterStatus, showCreateForm, creating,
    formData, loaded⟩, pending, log⟩ := σ
  cases e with
  | accountChanged a =>
    simp only [ConsentManagement.step, Option.some.injEq] at h
    subst h
    exact ⟨id, id⟩
  | submit =>
    simp only [ConsentManagement.step, Option.some.injEq] at h
    subst h
    rcases account with _ | a
    · simp [ConsentManagement.commit, ConsentManagement.handleCreateConsent]
    · by_cases ha : a = ""
      · simp [ConsentManagement.commit, ConsentManagement.handleCreateConsent, ha]
      · by_cases hf : formData.patientId = "" ∨ formData.purpose = ""
        · simp [ConsentManagement.commit, ConsentManagement.handleCreateConsent, ha, hf]
        · simp [ConsentManagement.commit, ConsentManagement.handleCreateConsent, ha, hf]
  | updateStatus cid st =>
    simp only [ConsentManagement.step, Option.some.injEq] at h
    subst h
    simp [ConsentManagement.commit, ConsentManagement.handleUpdateStatus]
  | filter f =>
    simp only [ConsentManagement.step, Option.some.injEq] at h
    subst h
    by_cases hf : f = filterStatus
    · simp [ConsentManagement.commit, ConsentManagement.setFilterStatus, hf]
    · cases loaded <;> cases loading <;>
        simp [ConsentManagement.commit, ConsentManagement.setFilterStatus, hf,
          ConsentManagement.fetchConsents]
  | formChange field value =>
    simp only [ConsentManagement.step, Option.some.injEq] at h
    subst h
    cases field <;> simp [ConsentManagement.handleFormChange]
  | toggleForm =>
    simp only [ConsentManagement.step, Option.some.injEq] at h
    subst h
    simp [ConsentManagement.toggleCreateForm]
  | settle i r =>
    simp only [ConsentManagement.step] at h
    cases hp : pending[i]? with
    | none => simp [hp] at h
    | some p =>
      simp only [hp] at h
      cases p with
      | sign fd a f =>
        cases r <;> simp [ConsentManagement.resume] at h <;> subst h <;>
          simp [ConsentManagement.commit, ConsentManagement.handleCreateConsent_signed]
      | create f =>
        cases r <;> simp [ConsentManagement.resume] at h <;> subst h <;>
          cases loaded <;> cases loading <;>
          simp [ConsentManagement.commit, ConsentManagement.handleCreateConsent_created,
            ConsentManagement.fetchConsents]
      | update f =>
        cases r <;> simp [ConsentManagement.resume] at h <;> subst h <;>
          cases loaded <;> cases loading <;>
          simp [ConsentManagement.commit, ConsentManagement.handleUpdateStatus_updated,
            ConsentManagement.fetchConsents]
      | fetch f c =>
        cases r <;> cases c <;> simp [ConsentManagement.resume] at h <;> subst h <;>
          simp [ConsentManagement.commit, ConsentManagement.fetchConsents_settled]

/-- Consents view: the same two facts along any sequence of events. -/
theorem consents_run_flag (es : List ConsentManagement.Event) (σ τ : ConsentManagement.Sys)
    (h : ConsentManagement.run σ es = some τ) :
    (σ.state.initialLoadedRef = true → τ.state.initialLoadedRef = true)
      ∧ ((σ.state.initialLoadedRef = true → σ.state.loading = false) →
          (τ.state.initialLoadedRef = true → τ.state.loading = false)) := by
  induction es generalizing σ with
  | nil =>
    simp only [ConsentManagement.run, Option.some.injEq] at h
    subst h
    exact ⟨id, id⟩
  | cons e es ih =>
    simp only [ConsentManagement.run] at h
    cases hs : ConsentManagement.step σ e with
    | none => simp [hs] at h
    | some σ1 =>
      simp only [hs] at h
      have h1 := consents_step_flag σ σ1 e hs
      have h2 := ih σ1 h
      exact ⟨fun x => h2.1 (h1.1 x), fun x => h2.2 (h1.2 x)⟩

/-- Transactions view: an event never resets the has-loaded-once flag, and keeps the fact
that `loading` is false once the flag is set. -/
theorem transactions_step_flag (σ τ : TransactionHistory.Sys) (e : TransactionHistory.Event)
    (h : TransactionHistory.step σ e = some τ) :
    (σ.state.initialLoadedRef = true → τ.state.initialLoadedRef = true)
      ∧ ((σ.state.initialLoadedRef = true → σ.state.loading = false) →
          (τ.state.initialLoadedRef = true → τ.state.loading = false)) := by
  obtain ⟨account, ⟨transactions, loading, error, filterEnabled, loaded⟩, pending, log⟩ := σ
  cases e with
  | accountChanged a =>
    simp only [TransactionHistory.step] at h
    by_cases ha : a = account
    · simp only [ha, if_true, Option.some.injEq] at h
      subst h
      exact ⟨id, id⟩
    · simp only [ha, if_false, Option.some.injEq] at h
      subst h
      cases loaded <;> cases loading <;>
        simp [TransactionHistory.commit, TransactionHistory.fetchTransactions]
  | toggleFilter =>
    simp only [TransactionHistory.step, Option.some.injEq] at h
    subst h
    cases loaded <;> cases loading <;>
      simp [TransactionHistory.commit, TransactionHistory.fetchTransactions]
  | settle i r =>
    simp only [TransactionHistory.step] at h
    cases hp : pending[i]? with
    | none => simp [hp] at h
    | some p =>
      simp only [hp, Option.some.injEq] at h
      subst h
      cases p
      cases r <;>
        simp [TransactionHistory.commit, TransactionHistory.resume,
          TransactionHistory.fetchTransactions_settled]

/-- Transactions view: the same two facts along any sequence of events. -/
theorem transactions_run_flag (es : List TransactionHistory.Event)
    (σ τ : TransactionHistory.Sys) (h : TransactionHistory.run σ es = some τ) :
    (σ.state.initialLoadedRef = true → τ.state.initialLoadedRef = true)
      ∧ ((σ.state.initialLoadedRef = true → σ.state.loading = false) →
          (τ.state.initialLoadedRef = true → τ.state.loading = false)) := by
  induction es generalizing σ with
  | nil =>
    simp only [TransactionHistory.run, Option.some.injEq] at h
    subst h
    exact ⟨id, id⟩
  | cons e es ih =>
    simp only [TransactionHistory.run] at h
    cases hs : TransactionHistory.step σ e with
    | none => simp [hs] at h
    | some σ1 =>
      simp only [hs] at h
      have h1 := transactions_step_flag σ σ1 e hs
      have h2 := ih σ1 h
      exact ⟨fun x => h2.1 (h1.1 x), fun x => h2.2 (h1.2 x)⟩

/-- Consents view: the flag goes from false to true only when a list fetch settles. -/
theorem consents_flag_set_by_fetch (σ τ : ConsentManagement.Sys) (e : ConsentManagement.Event)
    (h : ConsentManagement.step σ e = some τ) (h0 : σ.state.initialLoadedRef = false)
    (h1 : τ.state.initialLoadedRef = true) :
    ∃ i r f c, e = ConsentManagement.Event.settle i r
      ∧ σ.pending[i]? = some (ConsentManagement.Pending.fetch f c) := by
  obtain ⟨account, ⟨consents, loading, error, filterStatus, showCreateForm, creating,
    formData, loaded⟩, pending, log⟩ := σ
  simp only at h0
  subst h0
  cases e with
  | accountChanged a =>
    simp only [ConsentManagement.step, Option.some.injEq] at h
    subst h
    simp at h1
  | submit =>
    simp only [ConsentManagement.step, Option.some.injEq] at h
    subst h
    rcases account with _ | a
    · simp [ConsentManagement.commit, ConsentManagement.handleCreateConsent] at h1
    · by_cases ha : a = ""
      · simp [ConsentManagement.commit, ConsentManagement.handleCreateConsent, ha] at h1
      · by_cases hf : formData.patientId = "" ∨ formData.purpose = ""
        · simp [ConsentManagement.commit, ConsentManagement.handleCreateConsent, ha, hf] at h1
        · simp [ConsentManagement.commit, ConsentManagement.handleCreateConsent, ha, hf] at h1
  | updateStatus cid st =>
    simp only [ConsentManagement.step, Option.some.injEq] at h
    subst h
    simp [ConsentManagement.commit, ConsentManagement.handleUpdateStatus] at h1
  | filter f =>
    simp only [ConsentManagement.step, Option.some.injEq] at h
    subst h
    by_cases hf : f = filterStatus
    · simp [ConsentManagement.commit, ConsentManagement.setFilterStatus, hf] at h1
    · simp [ConsentManagement.commit, ConsentManagement.setFilterStatus, hf,
        ConsentManagement.fetchConsents] at h1
  | formChange field value =>
    simp only [ConsentManagement.step, Option.some.injEq] at h
    subst h
    cases field <;> simp [ConsentManagement.handleFormChange] at h1
  | toggleForm =>
    simp only [ConsentManagement.step, Option.some.injEq] at h
    subst h
    simp [ConsentManagement.toggleCreateForm] at h1
  | settle i r =>
    simp only [ConsentManagement.step] at h
    cases hp : pending[i]? with
    | none => simp [hp] at h
    | some p =>
      simp only [hp] at h
      cases p with
      | sign fd a f =>
        cases r <;> simp [ConsentManagement.resume] at h <;> subst h <;>
          simp [ConsentManagement.commit, ConsentManagement.handleCreateConsent_signed] at h1
      | create f =>
        cases r <;> simp [ConsentManagement.resume] at h <;> subst h <;>
          simp [ConsentManagement.commit, ConsentManagement.handleCreateConsent_created,
            ConsentManagement.fetchConsents] at h1
      | update f =>
        cases r <;> simp [ConsentManagement.resume] at h <;> subst h <;>
          simp [ConsentManagement.commit, ConsentManagement.handleUpdateStatus_updated,
            ConsentManagement.fetchConsents] at h1
      | fetch f c => exact ⟨i, r, f, c, rfl, hp⟩

/-- Transactions view: the flag goes from false to true only when a list fetch settles. -/
theorem transactions_flag_set_by_fetch (σ τ : TransactionHistory.Sys)
    (e : TransactionHistory.Event) (h : TransactionHistory.step σ e = some τ)
    (h0 : σ.state.initialLoadedRef = false) (h1 : τ.state.initialLoadedRef = true) :
    ∃ i r, e = TransactionHistory.Event.settle i r ∧ i < σ.pending.length := by
  obtain ⟨account, ⟨transactions, loading, error, filterEnabled, loaded⟩, pending, log⟩ := σ
  simp only at h0
  subst h0
  cases e with
  | accountChanged a =>
    simp only [TransactionHistory.step] at h
    by_cases ha : a = account
    · simp only [ha, if_true, Option.some.injEq] at h
      subst h
      simp at h1
    · simp only [ha, if_false, Option.some.injEq] at h
      subst h
      simp [TransactionHistory.commit, TransactionHistory.fetchTransactions] at h1
  | toggleFilter =>
    simp only [TransactionHistory.step, Option.some.injEq] at h
    subst h
    simp [TransactionHistory.commit, TransactionHistory.fetchTransactions] at h1
  | settle i r =>
    simp only [TransactionHistory.step] at h
    cases hp : pending[i]? with
    | none => simp [hp] at h
    | some p =>
      refine ⟨i, r, rfl, ?_⟩
      by_contra hlt
      rw [List.getElem?_eq_none (Nat.le_of_not_lt hlt)] at hp
      exact Option.noConfusion hp

/-- C14: in the consents view and in the transactions view the has-loaded-once flag is false
at mount, is set (with `loading` false) whenever a list fetch settles, successfully or not,
and goes from false to true by no other event; it is never reset, and once it is set
`loading` is false in every later state, so a fetch started after the first one settled
never shows the loading state. -/
theorem C14_loading_only_until_first_settle (account : Option String) :
    ((ConsentManagement.mount account).state.initialLoadedRef = false
      ∧ (∀ (σ : ConsentManagement.Sys) (i : Nat) (f : String) (c : ConsentManagement.Caller)
            (r : ConsentManagement.Reply),
          σ.pending[i]? = some (ConsentManagement.Pending.fetch f c) →
          ((∃ err, r = ConsentManagement.Reply.rejected err)
            ∨ ∃ response, r = ConsentManagement.Reply.consents response) →
          ∃ τ, ConsentManagement.step σ (ConsentManagement.Event.settle i r) = some τ
            ∧ τ.state.initialLoadedRef = true ∧ τ.state.loading = false)
      ∧ (∀ (σ τ : ConsentManagement.Sys) (e : ConsentManagement.Event),
          ConsentManagement.step σ e = some τ → σ.state.initialLoadedRef = false →
          τ.state.initialLoadedRef = true →
          ∃ i r f c, e = ConsentManagement.Event.settle i r
            ∧ σ.pending[i]? = some (ConsentManagement.Pending.fetch f c))
      ∧ (∀ (es1 es2 : List ConsentManagement.Event) (σ1 σ2 : ConsentManagement.Sys),
          ConsentManagement.run (ConsentManagement.mount account) es1 = some σ1 →
          σ1.state.initialLoadedRef = true →
          ConsentManagement.run σ1 es2 = some σ2 →
          σ2.state.initialLoadedRef = true ∧ σ2.state.loading = false))
    ∧ ((TransactionHistory.mount account).state.initialLoadedRef = false
      ∧ (∀ (σ : TransactionHistory.Sys) (i : Nat) (r : TransactionHistory.Reply),
          i < σ.pending.length →
          ∃ τ, TransactionHistory.step σ (TransactionHistory.Event.settle i r) = some τ
            ∧ τ.state.initialLoadedRef = true ∧ τ.state.loading = false)
      ∧ (∀ (σ τ : TransactionHistory.Sys) (e : TransactionHistory.Event),
          TransactionHistory.step σ e = some τ → σ.state.initialLoadedRef = false →
          τ.state.initialLoadedRef = true →
          ∃ i r, e = TransactionHistory.Event.settle i r ∧ i < σ.pending.length)
      ∧ (∀ (es1 es2 : List TransactionHistory.Event) (σ1 σ2 : TransactionHistory.Sys),
          TransactionHistory.run (TransactionHistory.mount account) es1 = some σ1 →
          σ1.state.initialLoadedRef = true →
          TransactionHistory.run σ1 es2 = some σ2 →
          σ2.state.initialLoadedRef = true ∧ σ2.state.loading = false)) := by
  refine ⟨⟨?_, ?_, ?_, ?_⟩, ⟨?_, ?_, ?_, ?_⟩⟩
  · simp [ConsentManagement.mount, ConsentManagement.commit, ConsentManagement.fetchConsents,
      ConsentManagement.initialState]
  · intro σ i f c r hp hr
    rcases hr with ⟨err, rfl⟩ | ⟨response, rfl⟩ <;>
      cases c <;>
      simp [ConsentManagement.step, hp, ConsentManagement.resume, ConsentManagement.commit,
        ConsentManagement.fetchConsents_settled]
  · intro σ τ e h h0 h1
    exact consents_flag_set_by_fetch σ τ e h h0 h1
  · intro es1 es2 σ1 σ2 h1 hl h2
    have hm : (ConsentManagement.mount account).state.initialLoadedRef = true →
        (ConsentManagement.mount account).state.loading = false := by
      simp [ConsentManagement.mount, ConsentManagement.commit,
        ConsentManagement.fetchConsents, ConsentManagement.initialState]
    have k1 := (consents_run_flag es1 _ σ1 h1).2 hm
    have k2 := consents_run_flag es2 σ1 σ2 h2
    exact ⟨k2.1 hl, k2.2 k1 (k2.1 hl)⟩
  · simp [TransactionHistory.mount, TransactionHistory.commit,
      TransactionHistory.fetchTransactions, TransactionHistory.initialState]
  · intro σ i r hi
    have hp : σ.pending[i]? = some σ.pending[i] := List.getElem?_eq_getElem hi
    cases hq : σ.pending[i] with
    | fetch a fe =>
      cases r <;>
        simp [TransactionHistory.step, hp, hq, TransactionHistory.resume,
          TransactionHistory.commit, TransactionHistory.fetchTransactions_settled]
  · intro σ τ e h h0 h1
    exact transactions_flag_set_by_fetch σ τ e h h0 h1
  · intro es1 es2 σ1 σ2 h1 hl h2
    have hm : (TransactionHistory.mount account).state.initialLoadedRef = true →
        (TransactionHistory.mount account).state.loading = false := by
      simp [TransactionHistory.mount, TransactionHistory.commit,
        TransactionHistory.fetchTransactions, TransactionHistory.initialState]
    have k1 := (transactions_run_flag es1 _ σ1 h1).2 hm
    have k2 := transactions_run_flag es2 σ1 σ2 h2
    exact ⟨k2.1 hl, k2.2 k1 (k2.1 hl)⟩

/-- C14 at a concrete input: the first fetch of the consents view fails with "Server Error". -/
theorem C14_loading_only_until_first_settle_witness :
    ∃ τ, ConsentManagement.step (ConsentManagement.mount none)
          (ConsentManagement.Event.settle 0
            (ConsentManagement.Reply.rejected { message := "Server Error" })) = some τ
      ∧ τ.state.initialLoadedRef = true ∧ τ.state.loading = false :=
  (C14_loading_only_until_first_settle none).1.2.1 (ConsentManagement.mount none) 0 "all"
    ConsentManagement.Caller.effect
    (ConsentManagement.Reply.rejected { message := "Server Error" }) (by decide)
    (Or.inl ⟨{ message := "Server Error" }, rfl⟩)

end ListViews

/-! ## Theorems: the patients view -/

namespace PatientList

/-- Starting `fetchPatients` changes neither the page nor the search term. -/
theorem afterUpdate_page (old new : State) :
    (afterUpdate old new).state.currentPage = new.currentPage
      ∧ (afterUpdate old new).state.searchTerm = new.searchTerm := by
  unfold afterUpdate
  split <;> simp [fetchPatients]

/-- An event keeps the page number at 1 or above. -/
theorem step_page_ge_one (σ τ : Sys) (e : Event) (h : step σ e = some τ)
    (hp : 1 ≤ σ.state.currentPage) : 1 ≤ τ.state.currentPage := by
  cases e with
  | search value =>
    simp only [step, Option.some.injEq] at h
    subst h
    simp [commit, (afterUpdate_page _ _).1, handleSearch]
  | prevPage =>
    simp only [step, Option.some.injEq] at h
    subst h
    simp [commit, (afterUpdate_page _ _).1, handlePrevPage]
  | nextPage =>
    simp only [step, Option.some.injEq] at h
    subst h
    simp only [commit, (afterUpdate_page _ _).1, handleNextPage]
    omega
  | settle i r =>
    simp only [step] at h
    cases hq : σ.pending[i]? with
    | none => simp [hq] at h
    | some p =>
      simp only [hq, Option.some.injEq] at h
      subst h
      cases p
      cases r <;> simpa [commit, resume, fetchPatients_settled] using hp

/-- C15 fails as stated: after the first fetch has settled (`loading` false), typing "John"
in the search box starts a second fetch and `loading` is true again. -/
theorem C15_refetch_sets_loading_counterexample :
    (run mount
        [Event.settle 0 (Reply.patients (some
          { patients := some []
            pagination := some { page := 1, limit := 10, total := 0, totalPages := 0 } }))]).map
        (fun σ => σ.state.loading) = some false
    ∧ (run mount
        [Event.settle 0 (Reply.patients (some
          { patients := some []
            pagination := some { page := 1, limit := 10, total := 0, totalPages := 0 } })),
         Event.search "John"]).map (fun σ => (σ.state.loading, σ.log))
      = some (true, [Effect.getPatients 1 10 "", Effect.getPatients 1 10 "John"]) := by
  decide

/-- C15 (amended): in the patients view every fetch sets `loading` to true when it starts and
to false when it settles; this holds for the fetch at mount and equally for each re-fetch
started by a changed search term, by "next" and by "previous" from page 2 or above. The view
has no has-loaded-once flag. -/
theorem C15_every_fetch_sets_loading :
    (∀ (p : ℤ) (t : String) (s : State), (fetchPatients p t s).state.loading = true)
      ∧ (∀ (r : Except ConsentManagement.JsError (Option PatientsResponse)) (s : State),
          (fetchPatients_settled r s).state.loading = false)
      ∧ mount.state.loading = true
      ∧ (∀ (σ : Sys) (value : String), value ≠ σ.state.searchTerm →
          ∃ τ, step σ (Event.search value) = some τ ∧ τ.state.loading = true
            ∧ τ.log = σ.log ++ [Effect.getPatients 1 10 value])
      ∧ (∀ (σ : Sys),
          ∃ τ, step σ Event.nextPage = some τ ∧ τ.state.loading = true
            ∧ τ.log = σ.log ++
                [Effect.getPatients (σ.state.currentPage + 1) 10 σ.state.searchTerm])
      ∧ (∀ (σ : Sys), 2 ≤ σ.state.currentPage →
          ∃ τ, step σ Event.prevPage = some τ ∧ τ.state.loading = true
            ∧ τ.log = σ.log ++
                [Effect.getPatients (σ.state.currentPage - 1) 10 σ.state.searchTerm]) := by
  refine ⟨?_, ?_, ?_, ?_, ?_, ?_⟩
  · intro p t s
    simp [fetchPatients]
  · intro r s
    cases r <;> simp [fetchPatients_settled]
  · simp [mount, commit, fetchPatients]
  · intro σ value hne
    simp [step, commit, afterUpdate, handleSearch, hne, fetchPatients]
  · intro σ
    simp [step, commit, afterUpdate, handleNextPage, fetchPatients]
  · intro σ h2
    have hmax : max 1 (σ.state.currentPage - 1) = σ.state.currentPage - 1 := by
      apply max_eq_right
      omega
    have hne : ¬ (σ.state.currentPage - 1 = σ.state.currentPage) := by omega
    simp [step, commit, afterUpdate, handlePrevPage, hmax, hne, fetchPatients]

/-- C15 (amended) at a concrete input: "John" is typed into the search box. -/
theorem C15_every_fetch_sets_loading_witness :
    ∃ τ, step mount (Event.search "John") = some τ ∧ τ.state.loading = true
      ∧ τ.log = mount.log ++ [Effect.getPatients 1 10 "John"] :=
  C15_every_fetch_sets_loading.2.2.2.1 mount "John" (by decide)

/-- C16: from the mounted view (page 1), after any sequence of search, previous and next
actions and settled requests the page number is at least 1; "previous" maps page p to
max(1, p - 1), so it leaves page 1 unchanged and takes every p of 2 or more to p - 1. -/
theorem C16_page_at_least_one :
    mount.state.currentPage = 1
      ∧ (∀ (es : List Event) (σ : Sys), run mount es = some σ → 1 ≤ σ.state.currentPage)
      ∧ (∀ (s : State), (handlePrevPage s).currentPage = max 1 (s.currentPage - 1))
      ∧ (∀ (s : State), s.currentPage = 1 → (handlePrevPage s).currentPage = 1)
      ∧ (∀ (s : State), 2 ≤ s.currentPage →
          (handlePrevPage s).currentPage = s.currentPage - 1) := by
  have hrun : ∀ (es : List Event) (σ τ : Sys), 1 ≤ σ.state.currentPage →
      run σ es = some τ → 1 ≤ τ.state.currentPage := by
    intro es
    induction es with
    | nil =>
      intro σ τ hp h
      simp only [run, Option.some.injEq] at h
      subst h
      exact hp
    | cons e es ih =>
      intro σ τ hp h
      simp only [run] at h
      cases hs : step σ e with
      | none => simp [hs] at h
      | some σ1 =>
        simp only [hs] at h
        exact ih σ1 τ (step_page_ge_one σ σ1 e hs hp) h
  refine ⟨?_, ?_, ?_, ?_, ?_⟩
  · simp [mount, commit, fetchPatients, initialState]
  · intro es σ h
    refine hrun es mount σ ?_ h
    simp [mount, commit, fetchPatients, initialState]
  · intro s
    rfl
  · intro s h1
    simp [handlePrevPage, h1]
  · intro s h2
    simp only [handlePrevPage]
    apply max_eq_right
    omega

/-- C16 at concrete inputs: "previous" at page 1 and at page 3. -/
theorem C16_page_at_least_one_witness :
    (handlePrevPage (atPage 1 5)).currentPage = 1
      ∧ (handlePrevPage (atPage 3 5)).currentPage = (atPage 3 5).currentPage - 1 :=
  ⟨C16_page_at_least_one.2.2.2.1 (atPage 1 5) rfl,
   C16_page_at_least_one.2.2.2.2 (atPage 3 5) (by decide)⟩

/-- C17: for every prior page and every new text, `handleSearch` sets the search term to the
text and the page to 1; when anything changed, the one request that follows asks for page 1
of that text. -/
theorem C17_search_resets_page (σ : Sys) (value : String) :
    (handleSearch value σ.state).searchTerm = value
      ∧ (handleSearch value σ.state).currentPage = 1
      ∧ (∃ τ, step σ (Event.search value) = some τ
          ∧ τ.state.searchTerm = value ∧ τ.state.currentPage = 1
          ∧ (τ.log = σ.log ∨ τ.log = σ.log ++ [Effect.getPatients 1 10 value])) := by
  refine ⟨rfl, rfl, _, rfl, ?_, ?_, ?_⟩
  · simp [commit, (afterUpdate_page _ _).2, handleSearch]
  · simp [commit, (afterUpdate_page _ _).1, handleSearch]
  · by_cases h : (1 : ℤ) = σ.state.currentPage ∧ value = σ.state.searchTerm
    · left
      simp [commit, afterUpdate, handleSearch, h]
    · right
      simp [commit, afterUpdate, handleSearch, h, fetchPatients]

/-- C18: whenever the pagination block is rendered, "previous" is disabled exactly when the
current page is at most 1 and "next" exactly when the current page is at least totalPages. At
page 2 of 5 "previous" is enabled and takes the view to page 1; at page 1 (of 5) "previous" is
disabled; at page 5 of 5 "next" is disabled. -/
theorem C18_pagination_controls (s : State) (p : Pagination) (c : PaginationControls)
    (hp : s.pagination = some p) (hc : paginationControls s = some c) :
    (c.prevDisabled = true ↔ s.currentPage ≤ 1)
      ∧ (c.nextDisabled = true ↔ s.currentPage ≥ p.totalPages)
      ∧ paginationControls (atPage 2 5) = some { prevDisabled := false, nextDisabled := false }
      ∧ (handlePrevPage (atPage 2 5)).currentPage = 1
      ∧ (paginationControls (atPage 1 5)).map (fun k => k.prevDisabled) = some true
      ∧ (paginationControls (atPage 5 5)).map (fun k => k.nextDisabled) = some true := by
  have key : c = { prevDisabled := decide (s.currentPage ≤ 1)
                   nextDisabled := decide (s.currentPage ≥ p.totalPages) } := by
    unfold paginationControls at hc
    simp only [hp] at hc
    by_cases he : ConsentManagement.truthy s.error = true
    · simp [he] at hc
    · by_cases ht : p.totalPages > 1
      · simp [he, ht] at hc
        exact hc.symm
      · simp [he, ht] at hc
  subst key
  refine ⟨by simp, by simp, by decide, by decide, by decide, by decide⟩

/-- C18 at a concrete input: page 2 of 5. -/
theorem C18_pagination_controls_witness :
    paginationControls (atPage 2 5) = some { prevDisabled := false, nextDisabled := false }
      ∧ (((false : Bool) = true ↔ (atPage 2 5).currentPage ≤ 1)
        ∧ ((false : Bool) = true ↔ (atPage 2 5).currentPage ≥ 5)) :=
  ⟨by decide,
    (C18_pagination_controls (atPage 2 5)
      { page := 2, limit := 10, total := 50, totalPages := 5 }
      { prevDisabled := false, nextDisabled := false } rfl (by decide)).1,
    (C18_pagination_controls (atPage 2 5)
      { page := 2, limit := 10, total := 50, totalPages := 5 }
      { prevDisabled := false, nextDisabled := false } rfl (by decide)).2.1⟩

end PatientList

/-! ## Theorems: identifier truncation -/

namespace CopyableAddress

/-- The text width a plain layout leaves. -/
theorem availableTextWidth_plainLayout (w : ℚ) : availableTextWidth (plainLayout w) = w - 40 := by
  simp only [availableTextWidth, plainLayout, orDefault, siblingsWidth, List.foldl]
  norm_num
  ring

/-- The character width of a plain layout. -/
theorem charWidth_plainLayout (w : ℚ) : charWidth (plainLayout w) = 10 := by
  simp only [charWidth, plainLayout]
  norm_num

/-- The character budget of a plain layout. -/
theorem maxChars_plainLayout (w : ℚ) : maxChars (plainLayout w) = ⌊(w - 70) / 10⌋ := by
  simp only [maxChars, availableTextWidth_plainLayout, charWidth_plainLayout]
  congr 2
  ring

/-- `calculateTruncation` once the early returns are passed. -/
theorem calculateTruncation_measured (address : String) (minChars : ℤ) (L : Layout)
    (haddr : address ≠ "") :
    calculateTruncation true address minChars true true (some L)
      = if availableTextWidth L ≤ 0 then minTruncation address minChars
        else if charWidth L = 0 then address
        else if maxChars L ≥ (address.length : ℤ) then address
        else if maxChars L < minChars then minTruncation address minChars
        else proportionalTruncation address (maxChars L) := by
  simp only [calculateTruncation, Bool.not_true, Bool.false_or, Bool.or_false,
    decide_eq_true_eq, haddr, if_false]

/-- For a positive count, `slice(0, n)` is the first `n` characters. -/
theorem slice_firstChars (s : String) (n : ℕ) : slice s 0 (some (n : ℤ)) = firstChars n s := by
  have h0 : relativeIndex s.length 0 = 0 := by simp [relativeIndex]
  have h1 : relativeIndex s.length (n : ℤ) = min n s.length := by simp [relativeIndex]
  have hlen : s.data.length = s.length := rfl
  simp only [slice, firstChars, h0, h1, List.drop_zero, Nat.sub_zero]
  congr 1
  by_cases hn : n ≤ s.length
  · rw [Nat.min_eq_left hn]
  · rw [Nat.min_eq_right (by omega), List.take_of_length_le (by omega),
      List.take_of_length_le (by omega)]

/-- For a positive count, `slice(-n)` is the last `n` characters. -/
theorem slice_lastChars (s : String) (n : ℕ) (hn : 0 < n) :
    slice s (-(n : ℤ)) none = lastChars n s := by
  have hneg : (-(n : ℤ)) < 0 := by omega
  have hlen : s.data.length = s.length := rfl
  simp only [slice, relativeIndex, lastChars, hneg, if_true]
  have h1 : ((s.length : ℤ) + -(n : ℤ)).toNat = s.length - n := by omega
  rw [h1]
  congr 1
  apply List.take_of_length_le
  rw [List.length_drop]
  omega

/-- The minimum-character truncation, for a minimum of 2 or more, is the first and the last
`minChars / 2` characters around the ellipsis. -/
theorem minTruncation_eq (address : String) (minChars : ℤ) (hmin : 2 ≤ minChars) :
    minTruncation address minChars
      = firstChars (minChars / 2).toNat address ++ "..."
          ++ lastChars (minChars / 2).toNat address := by
  have hfloor : ⌊(minChars : ℚ) / 2⌋ = minChars / 2 := by
    have h := Rat.floor_intCast_div_natCast minChars 2
    simpa using h
  obtain ⟨k, hk⟩ : ∃ k : ℕ, minChars / 2 = (k : ℤ) := ⟨(minChars / 2).toNat, by omega⟩
  have hk0 : 0 < k := by omega
  simp only [minTruncation, hfloor, hk, Int.toNat_ofNat]
  rw [slice_firstChars, slice_lastChars _ _ hk0]

/-- The character budget of a plain layout 480 px wide. -/
theorem maxChars_plainLayout_480 : maxChars (plainLayout 480) = 41 := by
  rw [maxChars_plainLayout, Int.floor_eq_iff]
  norm_num

/-- What the code does display in full: an address that fits together with the three
characters of an ellipsis. -/
theorem calculateTruncation_full_of_room (address : String) (minChars : ℤ) (L : Layout)
    (haddr : address ≠ "") (hcw : 0 < charWidth L)
    (hroom : ((address.length : ℚ) + 3) * charWidth L ≤ availableTextWidth L) :
    calculateTruncation true address minChars true true (some L) = address := by
  have hav : 0 < availableTextWidth L := by
    have h3 : (0 : ℚ) < (address.length : ℚ) + 3 := by positivity
    exact lt_of_lt_of_le (mul_pos h3 hcw) hroom
  have hmax : (address.length : ℤ) ≤ maxChars L := by
    simp only [maxChars]
    rw [Int.le_floor, le_div_iff₀ hcw]
    push_cast
    linarith
  rw [calculateTruncation_measured _ _ _ haddr, if_neg (not_le.mpr hav),
    if_neg (ne_of_gt hcw), if_pos hmax]

/-- C19 (code bug): a 42-character address in a layout with 440 px for the text and characters
10 px wide fits (420 px), yet `calculateTruncation` shortens it: the ellipsis is subtracted
before the fit test, `maxChars` is 41, and the string displayed has 44 characters. -/
theorem C19_fitting_address_is_shortened :
    (sampleAddress.length : ℚ) * charWidth (plainLayout 480)
        ≤ availableTextWidth (plainLayout 480)
      ∧ 0 < availableTextWidth (plainLayout 480)
      ∧ calculateTruncation true sampleAddress 10 true true (some (plainLayout 480))
          = "0x1234567890abcdef1234567...90abcdef12345678"
      ∧ calculateTruncation true sampleAddress 10 true true (some (plainLayout 480))
          ≠ sampleAddress := by
  have hlen : sampleAddress.length = 42 := by decide
  have hav := availableTextWidth_plainLayout 480
  have hcw := charWidth_plainLayout 480
  have hceil : ⌈((41 : ℤ) : ℚ) * (6 / 10)⌉ = 25 := by
    rw [Int.ceil_eq_iff]
    norm_num
  have hdisp : calculateTruncation true sampleAddress 10 true true (some (plainLayout 480))
      = "0x1234567890abcdef1234567...90abcdef12345678" := by
    rw [calculateTruncation_measured _ _ _ (by decide), hav, hcw, maxChars_plainLayout_480,
      hlen]
    norm_num
    simp only [proportionalTruncation, hceil]
    decide
  refine ⟨?_, ?_, hdisp, ?_⟩
  · rw [hlen, hav, hcw]
    norm_num
  · rw [hav]
    norm_num
  · rw [hdisp]
    decide

/-- The length of a string is the length of its character list. -/
theorem length_firstChars (n : ℕ) (s : String) : (firstChars n s).length = min n s.length := by
  have h : s.data.length = s.length := rfl
  show (s.data.take n).length = min n s.length
  rw [List.length_take, h]

/-- The number of characters `lastChars` returns. -/
theorem length_lastChars (n : ℕ) (s : String) : (lastChars n s).length = min n s.length := by
  have h : s.data.length = s.length := rfl
  show (s.data.drop (s.length - n)).length = min n s.length
  rw [List.length_drop, h]
  omega

/-- `slice(0)` and `slice(-0)` are the whole string. -/
theorem slice_zero_none (s : String) : slice s 0 none = s := by
  have h0 : relativeIndex s.length 0 = 0 := by simp [relativeIndex]
  have hlen : s.data.length = s.length := rfl
  simp only [slice, h0, List.drop_zero, Nat.sub_zero]
  rw [List.take_of_length_le (by omega)]

/-- `calculateTruncation` in its fallback branch. -/
theorem calculateTruncation_fallback (address : String) (minChars : ℤ) (L : Layout)
    (haddr : address ≠ "")
    (hfb : availableTextWidth L ≤ 0
      ∨ (0 < availableTextWidth L ∧ charWidth L ≠ 0
          ∧ maxChars L < (address.length : ℤ) ∧ maxChars L < minChars)) :
    calculateTruncation true address minChars true true (some L)
      = minTruncation address minChars := by
  rcases hfb with hav | ⟨hav, hcw, hlen, hlt⟩
  · rw [calculateTruncation_measured _ _ _ haddr, if_pos hav]
  · rw [calculateTruncation_measured _ _ _ haddr, if_neg (not_le.mpr hav), if_neg hcw,
      if_neg (not_le.mpr hlen), if_pos hlt]

/-- C28: in the fallback branch, for `minChars` of 2 or more and an address with at least
`minChars / 2` characters the displayed string has exactly 2·(minChars / 2) + 3 characters;
for `minChars` 0 or 1 the half is 0, `slice(-0)` returns the whole address and the displayed
string is "..." followed by the entire address. -/
theorem C28_fallback_length (address : String) (minChars : ℤ) (L : Layout)
    (haddr : address ≠ "")
    (hfb : availableTextWidth L ≤ 0
      ∨ (0 < availableTextWidth L ∧ charWidth L ≠ 0
          ∧ maxChars L < (address.length : ℤ) ∧ maxChars L < minChars)) :
    (2 ≤ minChars → (minChars / 2).toNat ≤ address.length →
        (calculateTruncation true address minChars true true (some L)).length
          = 2 * (minChars / 2).toNat + 3)
      ∧ (minChars = 0 ∨ minChars = 1 →
        calculateTruncation true address minChars true true (some L) = "..." ++ address) := by
  rw [calculateTruncation_fallback address minChars L haddr hfb]
  refine ⟨?_, ?_⟩
  · intro h2 hhalf
    have h3 : ("..." : String).length = 3 := by decide
    rw [minTruncation_eq _ _ h2, String.length_append, String.length_append,
      length_firstChars, length_lastChars, h3]
    omega
  · intro h01
    have hfloor : ⌊(minChars : ℚ) / 2⌋ = 0 := by
      rw [Int.floor_eq_iff]
      rcases h01 with h | h <;> subst h <;> norm_num
    have hfirst : slice address 0 (some 0) = "" := by
      have := slice_firstChars address 0
      simpa [firstChars] using this
    simp only [minTruncation, hfloor, neg_zero, slice_zero_none, hfirst]
    rfl

/-- C28 at concrete inputs: the 42-character address with no room, `minChars` 10 and 1. -/
theorem C28_fallback_length_witness :
    (calculateTruncation true sampleAddress 10 true true (some (plainLayout 30))).length = 13
      ∧ calculateTruncation true sampleAddress 1 true true (some (plainLayout 30))
          = "..." ++ sampleAddress :=
  ⟨(C28_fallback_length sampleAddress 10 (plainLayout 30) (by decide)
      (Or.inl (by rw [availableTextWidth_plainLayout]; norm_num))).1 (by norm_num) (by decide),
   (C28_fallback_length sampleAddress 1 (plainLayout 30) (by decide)
      (Or.inl (by rw [availableTextWidth_plainLayout]; norm_num))).2 (Or.inr rfl)⟩

/-! ### Copying -/

/-- Timer callbacks never touch the refs; `copied` ends false exactly when a revert timer
ran. -/
theorem foldl_fire (l : List Timer) (s : CopyState) :
    (l.foldl (fun s t => fire t s) s).copiedRef = s.copiedRef
      ∧ (l.foldl (fun s t => fire t s) s).copied
          = (if l.filter (fun t => decide (t.kind = TimerKind.copied)) = [] then s.copied
             else false) := by
  induction l generalizing s with
  | nil => simp
  | cons t l ih =>
    obtain ⟨id, kind, due⟩ := t
    cases kind
    · have h := ih (fire { id := id, kind := TimerKind.pressing, due := due } s)
      simp only [List.foldl_cons]
      refine ⟨h.1, ?_⟩
      rw [h.2]
      simp [fire]
    · have h := ih (fire { id := id, kind := TimerKind.copied, due := due } s)
      simp only [List.foldl_cons]
      refine ⟨h.1, ?_⟩
      rw [h.2]
      simp [fire]

/-- Clearing a ref only removes timers. -/
theorem clearRef_subset (ref : Option ℕ) (timers : List Timer) (t : Timer)
    (h : t ∈ clearRef ref timers) : t ∈ timers := by
  unfold clearRef at h
  split at h
  · split at h
    · exact h
    · exact (List.mem_filter.1 h).1
  · exact h

/-- Clearing the ref of a timer removes that timer. -/
theorem not_mem_clearRef (timers : List Timer) (t : Timer) (h0 : t.id ≠ 0) :
    t ∉ clearRef (some t.id) timers := by
  intro h
  simp only [clearRef, h0, if_false, clearTimeout] at h
  have := (List.mem_filter.1 h).2
  simp at this

/-- The invariant behind C24: every pending revert timer is the one the ref points to. -/
theorem copyStep_ref (σ τ : CopySys) (e : CopyEvent) (h : copyStep σ e = some τ)
    (hinv : ∀ t ∈ σ.timers, t.kind = TimerKind.copied →
      σ.state.copiedRef = some t.id ∧ t.id ≠ 0) :
    ∀ t ∈ τ.timers, t.kind = TimerKind.copied → τ.state.copiedRef = some t.id ∧ t.id ≠ 0 := by
  cases e with
  | click =>
    simp only [copyStep, Option.some.injEq] at h
    subst h
    exact hinv
  | writeResolved =>
    simp only [copyStep] at h
    split at h
    · exact Option.noConfusion h
    · simp only [Option.some.injEq] at h
      subst h
      intro t ht hk
      simp only [handleCopy_resolved, List.mem_append, List.mem_cons, List.mem_singleton,
        List.not_mem_nil, or_false] at ht
      rcases ht with ht | rfl | rfl
      · exfalso
        have hσ : t ∈ σ.timers := clearRef_subset _ _ _ (clearRef_subset _ _ _ ht)
        obtain ⟨href, h0⟩ := hinv t hσ hk
        rw [href] at ht
        exact not_mem_clearRef _ t h0 ht
      · simp at hk
      · exact ⟨rfl, Nat.succ_ne_zero _⟩
  | writeRejected err =>
    simp only [copyStep] at h
    split at h
    · exact Option.noConfusion h
    · simp only [Option.some.injEq] at h
      subst h
      exact hinv
  | advance dt =>
    simp only [copyStep, Option.some.injEq] at h
    subst h
    intro t ht hk
    have hσ : t ∈ σ.timers := (List.mem_filter.1 ht).1
    simp only [advance, (foldl_fire _ _).1]
    exact hinv t hσ hk
  | displayChanged d =>
    simp only [copyStep, Option.some.injEq] at h
    subst h
    exact hinv

/-- The same invariant along any sequence of events. -/
theorem copyRun_ref (es : List CopyEvent) (σ τ : CopySys) (h : copyRun σ es = some τ)
    (hinv : ∀ t ∈ σ.timers, t.kind = TimerKind.copied →
      σ.state.copiedRef = some t.id ∧ t.id ≠ 0) :
    ∀ t ∈ τ.timers, t.kind = TimerKind.copied → τ.state.copiedRef = some t.id ∧ t.id ≠ 0 := by
  induction es generalizing σ with
  | nil =>
    simp only [copyRun, Option.some.injEq] at h
    subst h
    exact hinv
  | cons e es ih =>
    simp only [copyRun] at h
    cases hs : copyStep σ e with
    | none => simp [hs] at h
    | some σ1 =>
      simp only [hs] at h
      exact ih σ1 h (copyStep_ref σ σ1 e hs hinv)

/-- After a successful copy exactly one revert timer is pending, due 2000 ms later. -/
theorem copiedTimers_resolved (σ : CopySys)
    (hinv : ∀ t ∈ σ.timers, t.kind = TimerKind.copied →
      σ.state.copiedRef = some t.id ∧ t.id ≠ 0) :
    copiedTimers (handleCopy_resolved σ)
      = [{ id := σ.nextTimerId + 1, kind := TimerKind.copied, due := σ.now + 2000 }] := by
  have hnone : (clearRef σ.state.copiedRef (clearRef σ.state.pressingRef σ.timers)).filter
      (fun t => decide (t.kind = TimerKind.copied)) = [] := by
    rw [List.filter_eq_nil_iff]
    intro t ht hk
    have hk' : t.kind = TimerKind.copied := by simpa using hk
    have hσ : t ∈ σ.timers := clearRef_subset _ _ _ (clearRef_subset _ _ _ ht)
    obtain ⟨href, h0⟩ := hinv t hσ hk'
    rw [href] at ht
    exact not_mem_clearRef _ t h0 ht
  simp only [copiedTimers, handleCopy_resolved, List.filter_append, hnone, List.nil_append]
  simp [List.filter]

/-- Filters commute. -/
theorem filter_swap {α : Type} (p q : α → Bool) (l : List α) :
    (l.filter p).filter q = (l.filter q).filter p := by
  rw [List.filter_filter, List.filter_filter]
  congr 1
  funext a
  exact Bool.and_comm _ _

/-- The revert timers still pending after the clock advanced. -/
theorem copiedTimers_advance (dt : ℕ) (σ : CopySys) :
    copiedTimers (advance dt σ)
      = (copiedTimers σ).filter (fun t => decide (σ.now + dt < t.due)) := by
  simp only [copiedTimers, advance]
  exact filter_swap _ _ _

/-- The `copied` flag after the clock advanced. -/
theorem copied_advance (dt : ℕ) (σ : CopySys) :
    (advance dt σ).state.copied
      = (if (copiedTimers σ).filter (fun t => decide (t.due ≤ σ.now + dt)) = []
         then σ.state.copied else false) := by
  simp only [advance, (foldl_fire _ _).2, copiedTimers]
  rw [filter_swap]

/-- Between two successful copies: while the revert timer `c` is not due, `copied` is true
and `c` is the pending revert timer; once it is due, `copied` is false and no revert timer
is pending. -/
theorem copyStep_window (σ τ : CopySys) (e : CopyEvent) (c : Timer)
    (he : e ≠ CopyEvent.writeResolved) (h : copyStep σ e = some τ)
    (hw : (σ.now < c.due ∧ σ.state.copied = true ∧ copiedTimers σ = [c])
      ∨ (c.due ≤ σ.now ∧ σ.state.copied = false ∧ copiedTimers σ = [])) :
    (τ.now < c.due ∧ τ.state.copied = true ∧ copiedTimers τ = [c])
      ∨ (c.due ≤ τ.now ∧ τ.state.copied = false ∧ copiedTimers τ = []) := by
  cases e with
  | click =>
    simp only [copyStep, Option.some.injEq] at h
    subst h
    exact hw
  | writeResolved => exact absurd rfl he
  | writeRejected err =>
    simp only [copyStep] at h
    split at h
    · exact Option.noConfusion h
    · simp only [Option.some.injEq] at h
      subst h
      exact hw
  | advance dt =>
    simp only [copyStep, Option.some.injEq] at h
    subst h
    rcases hw with ⟨hnow, hcop, hct⟩ | ⟨hnow, hcop, hct⟩
    · by_cases hd : σ.now + dt < c.due
      · left
        have hnd : ¬ c.due ≤ σ.now + dt := by omega
        refine ⟨hd, ?_, ?_⟩
        · rw [copied_advance, hct]
          simp [List.filter, hnd, hcop]
        · rw [copiedTimers_advance, hct]
          simp [List.filter, hd]
      · right
        have hd' : c.due ≤ σ.now + dt := Nat.le_of_not_lt hd
        refine ⟨hd', ?_, ?_⟩
        · rw [copied_advance, hct]
          simp [List.filter, hd']
        · rw [copiedTimers_advance, hct]
          simp [List.filter, hd]
    · right
      refine ⟨by simp only [advance]; omega, ?_, ?_⟩
      · rw [copied_advance, hct]
        simp [hcop]
      · rw [copiedTimers_advance, hct]
        simp
  | displayChanged d =>
    simp only [copyStep, Option.some.injEq] at h
    subst h
    exact hw

/-- The same along any sequence of events without a successful copy. -/
theorem copyRun_window (es : List CopyEvent) (σ τ : CopySys) (c : Timer)
    (hes : ∀ e ∈ es, e ≠ CopyEvent.writeResolved) (h : copyRun σ es = some τ)
    (hw : (σ.now < c.due ∧ σ.state.copied = true ∧ copiedTimers σ = [c])
      ∨ (c.due ≤ σ.now ∧ σ.state.copied = false ∧ copiedTimers σ = [])) :
    (τ.now < c.due ∧ τ.state.copied = true ∧ copiedTimers τ = [c])
      ∨ (c.due ≤ τ.now ∧ τ.state.copied = false ∧ copiedTimers τ = []) := by
  induction es generalizing σ with
  | nil =>
    simp only [copyRun, Option.some.injEq] at h
    subst h
    exact hw
  | cons e es ih =>
    simp only [copyRun] at h
    cases hs : copyStep σ e with
    | none => simp [hs] at h
    | some σ1 =>
      simp only [hs] at h
      exact ih σ1 (fun e' he' => hes e' (List.mem_cons_of_mem _ he')) h
        (copyStep_window σ σ1 e c (hes e (List.mem_cons_self _ _)) hs hw)

/-- An event keeps the number of pending revert timers at one or none. -/
theorem copyStep_count (σ τ : CopySys) (e : CopyEvent) (h : copyStep σ e = some τ)
    (hinv : ∀ t ∈ σ.timers, t.kind = TimerKind.copied →
      σ.state.copiedRef = some t.id ∧ t.id ≠ 0)
    (hcount : (copiedTimers σ).length ≤ 1) : (copiedTimers τ).length ≤ 1 := by
  cases e with
  | click =>
    simp only [copyStep, Option.some.injEq] at h
    subst h
    exact hcount
  | writeResolved =>
    simp only [copyStep] at h
    split at h
    · exact Option.noConfusion h
    · simp only [Option.some.injEq] at h
      subst h
      rw [copiedTimers_resolved σ hinv]
      exact Nat.le_refl _
  | writeRejected err =>
    simp only [copyStep] at h
    split at h
    · exact Option.noConfusion h
    · simp only [Option.some.injEq] at h
      subst h
      exact hcount
  | advance dt =>
    simp only [copyStep, Option.some.injEq] at h
    subst h
    rw [copiedTimers_advance]
    exact (List.length_filter_le _ _).trans hcount
  | displayChanged d =>
    simp only [copyStep, Option.some.injEq] at h
    subst h
    exact hcount

/-- The same along any sequence of events. -/
theorem copyRun_count (es : List CopyEvent) (σ τ : CopySys) (h : copyRun σ es = some τ)
    (hinv : ∀ t ∈ σ.timers, t.kind = TimerKind.copied →
      σ.state.copiedRef = some t.id ∧ t.id ≠ 0)
    (hcount : (copiedTimers σ).length ≤ 1) : (copiedTimers τ).length ≤ 1 := by
  induction es generalizing σ with
  | nil =>
    simp only [copyRun, Option.some.injEq] at h
    subst h
    exact hcount
  | cons e es ih =>
    simp only [copyRun] at h
    cases hs : copyStep σ e with
    | none => simp [hs] at h
    | some σ1 =>
      simp only [hs] at h
      exact ih σ1 h (copyStep_ref σ σ1 e hs hinv) (copyStep_count σ σ1 e hs hinv hcount)

/-- Every clipboard write of a run carries the `address` prop. -/
theorem copyRun_writes (es : List CopyEvent) (σ τ : CopySys) (h : copyRun σ es = some τ)
    (hlog : ∀ text, CopyEffect.writeText text ∈ σ.log → text = σ.address) :
    τ.address = σ.address ∧ ∀ text, CopyEffect.writeText text ∈ τ.log → text = σ.address := by
  induction es generalizing σ with
  | nil =>
    simp only [copyRun, Option.some.injEq] at h
    subst h
    exact ⟨rfl, hlog⟩
  | cons e es ih =>
    simp only [copyRun] at h
    cases hs : copyStep σ e with
    | none => simp [hs] at h
    | some σ1 =>
      simp only [hs] at h
      have h1 : σ1.address = σ.address
          ∧ ∀ text, CopyEffect.writeText text ∈ σ1.log → text = σ.address := by
        cases e with
        | click =>
          simp only [copyStep, Option.some.injEq] at hs
          subst hs
          refine ⟨rfl, ?_⟩
          intro text ht
          simp only [handleCopy, List.mem_append, List.mem_cons, List.mem_singleton,
            List.not_mem_nil, or_false] at ht
          rcases ht with ht | ht | ht
          · exact hlog text ht
          · exact CopyEffect.noConfusion ht
          · exact (CopyEffect.writeText.inj ht)
        | writeResolved =>
          simp only [copyStep] at hs
          split at hs
          · exact Option.noConfusion hs
          · simp only [Option.some.injEq] at hs
            subst hs
            exact ⟨rfl, hlog⟩
        | writeRejected err =>
          simp only [copyStep] at hs
          split at hs
          · exact Option.noConfusion hs
          · simp only [Option.some.injEq] at hs
            subst hs
            refine ⟨rfl, ?_⟩
            intro text ht
            simp only [handleCopy_rejected, List.mem_append, List.mem_singleton] at ht
            rcases ht with ht | ht
            · exact hlog text ht
            · exact CopyEffect.noConfusion ht
        | advance dt =>
          simp only [copyStep, Option.some.injEq] at hs
          subst hs
          exact ⟨rfl, hlog⟩
        | displayChanged d =>
          simp only [copyStep, Option.some.injEq] at hs
          subst hs
          exact ⟨rfl, hlog⟩
      have h2 := ih σ1 h (fun text ht => by rw [h1.1]; exact h1.2 text ht)
      exact ⟨h2.1.trans h1.1, fun text ht => by rw [← h1.1]; exact h2.2 text ht⟩

/-- C23: a click writes exactly the `address` prop to the clipboard, whatever string is
displayed: the request is the same for any two display states, and every clipboard write of
any run of the component carries the full address. -/
theorem C23_copy_writes_full_address (σ : CopySys) (display : String) :
    (handleCopy σ).log
        = σ.log ++ [CopyEffect.stopPropagation, CopyEffect.writeText σ.address]
      ∧ (handleCopy { σ with state := { σ.state with displayAddress := display } }).log
        = (handleCopy σ).log
      ∧ (∀ (address : String) (es : List CopyEvent) (τ : CopySys),
          copyRun (copyMount address) es = some τ →
          ∀ text, CopyEffect.writeText text ∈ τ.log → text = address) := by
  refine ⟨rfl, rfl, ?_⟩
  intro address es τ h
  exact (copyRun_writes es (copyMount address) τ h (by simp [copyMount])).2

/-- C23 at a concrete input: the address is displayed truncated, then clicked. -/
theorem C23_copy_writes_full_address_witness :
    ∀ text, CopyEffect.writeText text ∈
        (handleCopy { copyMount sampleAddress with
          state := { (copyMount sampleAddress).state with
            displayAddress := "0x123...45678" } }).log →
      text = sampleAddress :=
  (C23_copy_writes_full_address (copyMount sampleAddress) "0x123...45678").2.2 sampleAddress
    [CopyEvent.displayChanged "0x123...45678", CopyEvent.click] _ rfl

/-- C24: in every state the component reaches, at most one revert timer is pending. A
successful copy cancels the revert timer scheduled before it and leaves exactly one, due
2000 ms later, with `copied` true; from then until the next successful copy, `copied` is
true as long as fewer than 2000 ms have passed and false from then on, with no revert timer
left. -/
theorem C24_single_revert_timer (address : String) (es : List CopyEvent) (σ : CopySys)
    (hreach : copyRun (copyMount address) es = some σ) :
    (copiedTimers σ).length ≤ 1
      ∧ copiedTimers (handleCopy_resolved σ)
          = [{ id := σ.nextTimerId + 1, kind := TimerKind.copied, due := σ.now + 2000 }]
      ∧ (handleCopy_resolved σ).state.copied = true
      ∧ (∀ (es2 : List CopyEvent) (τ : CopySys),
          (∀ e ∈ es2, e ≠ CopyEvent.writeResolved) →
          copyRun (handleCopy_resolved σ) es2 = some τ →
          (τ.now < σ.now + 2000 → τ.state.copied = true ∧ (copiedTimers τ).length = 1)
            ∧ (σ.now + 2000 ≤ τ.now → τ.state.copied = false ∧ copiedTimers τ = [])) := by
  have hinv := copyRun_ref es (copyMount address) σ hreach (by simp [copyMount])
  have hres := copiedTimers_resolved σ hinv
  refine ⟨?_, hres, rfl, ?_⟩
  · exact copyRun_count es (copyMount address) σ hreach (by simp [copyMount])
      (by simp [copiedTimers, copyMount])
  · intro es2 τ hes h2
    have hw := copyRun_window es2 (handleCopy_resolved σ) τ
      { id := σ.nextTimerId + 1, kind := TimerKind.copied, due := σ.now + 2000 } hes h2
      (Or.inl ⟨by simp [handleCopy_resolved], rfl, hres⟩)
    simp only at hw
    constructor
    · intro hlt
      rcases hw with ⟨_, hc, hct⟩ | ⟨hge, _, _⟩
      · exact ⟨hc, by rw [hct]; rfl⟩
      · omega
    · intro hge
      rcases hw with ⟨hlt, _, _⟩ | ⟨_, hc, hct⟩
      · omega
      · exact ⟨hc, hct⟩

/-- C24 at a concrete input: two successful copies 1000 ms apart. -/
theorem C24_single_revert_timer_witness :
    (copiedTimers (handleCopy_resolved (handleCopy (advance 1000
        (handleCopy_resolved (handleCopy (copyMount sampleAddress))))))).length ≤ 1 :=
  (C24_single_revert_timer sampleAddress
    [CopyEvent.click, CopyEvent.writeResolved, CopyEvent.advance 1000, CopyEvent.click,
      CopyEvent.writeResolved]
    (handleCopy_resolved (handleCopy (advance 1000
        (handleCopy_resolved (handleCopy (copyMount sampleAddress)))))) rfl).1

end CopyableAddress

/-! ## Theorems: transaction types -/

namespace TransactionHistory

/-- The output of the whitespace replacement contains no whitespace. -/
theorem replaceWhiteSpace_clean (inRun : Bool) (l : List Char) :
    ∀ c ∈ replaceWhiteSpace inRun l, isWhiteSpace c = false := by
  induction l generalizing inRun with
  | nil => simp [replaceWhiteSpace]
  | cons a l ih =>
    intro c hc
    unfold replaceWhiteSpace at hc
    split at hc
    · split at hc
      · exact ih true c hc
      · rcases List.mem_cons.1 hc with rfl | hc
        · decide
        · exact ih true c hc
    · rename_i ha
      rcases List.mem_cons.1 hc with rfl | hc
      · simpa using ha
      · exact ih false c hc

/-- A list without whitespace is left as it is. -/
theorem replaceWhiteSpace_of_clean (l : List Char) (h : ∀ c ∈ l, isWhiteSpace c = false) :
    replaceWhiteSpace false l = l := by
  induction l with
  | nil => rfl
  | cons a l ih =>
    have ha : isWhiteSpace a = false := h a (List.mem_cons_self _ _)
    have hl : ∀ c ∈ l, isWhiteSpace c = false := fun c hc => h c (List.mem_cons_of_mem _ hc)
    simp [replaceWhiteSpace, ha, ih hl]

/-- A word without whitespace and underscore starts the replaced list exactly when it starts
the original one. -/
theorem replaceWhiteSpace_isPrefix (w : List Char)
    (hw : ∀ c ∈ w, isWhiteSpace c = false ∧ c ≠ '_') (l : List Char) :
    w <+: replaceWhiteSpace false l ↔ w <+: l := by
  induction w generalizing l with
  | nil => simp
  | cons a w ih =>
    have ha := hw a (List.mem_cons_self _ _)
    have hw' : ∀ c ∈ w, isWhiteSpace c = false ∧ c ≠ '_' :=
      fun c hc => hw c (List.mem_cons_of_mem _ hc)
    cases l with
    | nil => simp [replaceWhiteSpace]
    | cons c cs =>
      by_cases hc : isWhiteSpace c = true
      · have hac : a ≠ c := by
          intro h
          rw [h, hc] at ha
          exact Bool.noConfusion ha.1
        simp [replaceWhiteSpace, hc, ha.2, hac]
      · simp only [Bool.not_eq_true] at hc
        simp [replaceWhiteSpace, hc, ih hw' cs]

/-- Such a word occurs in the replaced list exactly when it occurs in the original one. -/
theorem replaceWhiteSpace_isInfix (w : List Char) (hne : w ≠ [])
    (hw : ∀ c ∈ w, isWhiteSpace c = false ∧ c ≠ '_') (inRun : Bool) (l : List Char) :
    w <:+: replaceWhiteSpace inRun l ↔ w <:+: l := by
  obtain ⟨a, w', rfl⟩ := List.exists_cons_of_ne_nil hne
  have ha := hw a (List.mem_cons_self _ _)
  have hw' : ∀ c ∈ w', isWhiteSpace c = false ∧ c ≠ '_' :=
    fun c hc => hw c (List.mem_cons_of_mem _ hc)
  induction l generalizing inRun with
  | nil => simp [replaceWhiteSpace]
  | cons c cs ih =>
    have ih1 := ih true
    have ih0 := ih false
    by_cases hc : isWhiteSpace c = true
    · have hac : a ≠ c := by
        intro h
        rw [h, hc] at ha
        exact Bool.noConfusion ha.1
      cases inRun
      · simp [replaceWhiteSpace, hc, List.infix_cons_iff, ha.2, hac, ih1]
      · simp [replaceWhiteSpace, hc, List.infix_cons_iff, hac, ih1]
    · simp only [Bool.not_eq_true] at hc
      have hp := replaceWhiteSpace_isPrefix w' hw' cs
      simp [replaceWhiteSpace, hc, List.infix_cons_iff, ih0, hp]

/-- The three keywords are found in the normalized string exactly when they are found in the
lower-cased one. -/
theorem includes_normalized (s w : String) (hne : w.data ≠ [])
    (hw : ∀ c ∈ w.data, isWhiteSpace c = false ∧ c ≠ '_') :
    includes (String.mk (replaceWhiteSpace false s.data)) w = includes s w := by
  simp only [includes]
  rw [decide_eq_decide]
  exact replaceWhiteSpace_isInfix w.data hne hw false s.data

/-- Lower-casing an ASCII letter twice is lower-casing it once. -/
theorem toLower_toLower (c : Char) : Char.toLower (Char.toLower c) = Char.toLower c := by
  unfold Char.toLower
  simp only
  split
  · rename_i h
    generalize c.toNat = n at h
    obtain ⟨h1, h2⟩ := h
    have h1' : 65 ≤ n := h1
    interval_cases n <;> decide
  · rename_i h
    simp [h]

/-- The ASCII lower-casing leaves a lower-cased, whitespace-replaced list unchanged. -/
theorem map_toLower_replaceWhiteSpace (inRun : Bool) (l : List Char) :
    (replaceWhiteSpace inRun (l.map Char.toLower)).map Char.toLower
      = replaceWhiteSpace inRun (l.map Char.toLower) := by
  induction l generalizing inRun with
  | nil => rfl
  | cons a l ih =>
    simp only [List.map_cons, replaceWhiteSpace]
    split
    · split
      · exact ih true
      · rw [List.map_cons, ih true]
        rfl
    · rw [List.map_cons, ih false, toLower_toLower]

/-- The class of a non-empty type, by the keywords found in the lower-cased type. -/
theorem getTransactionTypeClass_some (toLowerCase : String → String) (t : String)
    (ht : t ≠ "") :
    getTransactionTypeClass toLowerCase (some t)
      = if includes (toLowerCase t) "consent" then "consent_approval"
        else if includes (toLowerCase t) "data" || includes (toLowerCase t) "access" then
          "data_access"
        else String.mk (replaceWhiteSpace false (toLowerCase t).data) := by
  simp only [getTransactionTypeClass, ht, if_false]
  rw [includes_normalized _ "consent" (by decide) (by decide),
    includes_normalized _ "data" (by decide) (by decide),
    includes_normalized _ "access" (by decide) (by decide)]

/-- C30: for every `type`, `getTransactionTypeClass` gives "" for an absent or empty type,
"consent_approval" when the lower-cased type contains "consent", "data_access" when it
otherwise contains "data" or "access", and otherwise the lower-cased type with every run of
whitespace replaced by one "_"; the result contains no whitespace, and applying the function
to its own result gives that result again. `toLowerCase` is any function that leaves the two
class names and every lower-cased, whitespace-replaced string unchanged, as the JavaScript
built-in does. -/
theorem C30_type_class_idempotent (toLowerCase : String → String)
    (hstable : ∀ s, toLowerCase (String.mk (replaceWhiteSpace false (toLowerCase s).data))
      = String.mk (replaceWhiteSpace false (toLowerCase s).data))
    (hc1 : toLowerCase "consent_approval" = "consent_approval")
    (hc2 : toLowerCase "data_access" = "data_access")
    (type : Option String) :
    (type = none ∨ type = some "" → getTransactionTypeClass toLowerCase type = "")
      ∧ (∀ t, type = some t → t ≠ "" →
          (includes (toLowerCase t) "consent" = true →
              getTransactionTypeClass toLowerCase type = "consent_approval")
            ∧ (includes (toLowerCase t) "consent" = false →
                includes (toLowerCase t) "data" = true
                  ∨ includes (toLowerCase t) "access" = true →
              getTransactionTypeClass toLowerCase type = "data_access")
            ∧ (includes (toLowerCase t) "consent" = false →
                includes (toLowerCase t) "data" = false →
                includes (toLowerCase t) "access" = false →
              getTransactionTypeClass toLowerCase type
                = String.mk (replaceWhiteSpace false (toLowerCase t).data)))
      ∧ (∀ c ∈ (getTransactionTypeClass toLowerCase type).data, isWhiteSpace c = false)
      ∧ getTransactionTypeClass toLowerCase (some (getTransactionTypeClass toLowerCase type))
          = getTransactionTypeClass toLowerCase type := by
  have hempty : getTransactionTypeClass toLowerCase (some "") = "" := by
    simp [getTransactionTypeClass]
  have hconsent : getTransactionTypeClass toLowerCase (some "consent_approval")
      = "consent_approval" := by
    rw [getTransactionTypeClass_some _ _ (by decide), hc1]
    decide
  have hdata : getTransactionTypeClass toLowerCase (some "data_access") = "data_access" := by
    rw [getTransactionTypeClass_some _ _ (by decide), hc2]
    decide
  refine ⟨?_, ?_, ?_, ?_⟩
  · rintro (rfl | rfl)
    · rfl
    · exact hempty
  · rintro t rfl ht
    rw [getTransactionTypeClass_some _ _ ht]
    refine ⟨?_, ?_, ?_⟩
    · intro h
      simp [h]
    · intro h hd
      rcases hd with hd | hd <;> simp [h, hd]
    · intro h hd ha
      simp [h, hd, ha]
  · cases type with
    | none => simp [getTransactionTypeClass]
    | some t =>
      by_cases ht : t = ""
      · subst ht
        rw [hempty]
        simp
      · rw [getTransactionTypeClass_some _ _ ht]
        split
        · decide
        · split
          · decide
          · exact replaceWhiteSpace_clean false _
  · cases type with
    | none => exact hempty
    | some t =>
      by_cases ht : t = ""
      · subst ht
        rw [hempty]
        exact hempty
      · rw [getTransactionTypeClass_some _ _ ht]
        split
        · exact hconsent
        · split
          · exact hdata
          · rename_i h1 h2
            by_cases hn : String.mk (replaceWhiteSpace false (toLowerCase t).data) = ""
            · rw [hn]
              exact hempty
            · rw [getTransactionTypeClass_some _ _ hn, hstable,
                includes_normalized _ "consent" (by decide) (by decide),
                includes_normalized _ "data" (by decide) (by decide),
                includes_normalized _ "access" (by decide) (by decide),
                replaceWhiteSpace_of_clean _ (replaceWhiteSpace_clean false _)]
              rw [if_neg h1, if_neg h2]

/-- C30 at concrete inputs, with the ASCII lower-casing: the types of the gateway test
fixture and a type that matches no keyword. -/
theorem C30_type_class_idempotent_witness :
    getTransactionTypeClass asciiLowerCase
        (some (getTransactionTypeClass asciiLowerCase (some "Token \t Transfer")))
      = getTransactionTypeClass asciiLowerCase (some "Token \t Transfer")
    ∧ getTransactionTypeClass asciiLowerCase (some "Token \t Transfer") = "token_transfer"
    ∧ getTransactionTypeClass asciiLowerCase (some "Consent Approval") = "consent_approval"
    ∧ getTransactionTypeClass asciiLowerCase (some "Data Access") = "data_access" :=
  ⟨(C30_type_class_idempotent asciiLowerCase
      (fun s => congrArg String.mk (map_toLower_replaceWhiteSpace false s.data))
      (by decide) (by decide) (some "Token \t Transfer")).2.2.2,
   by decide, by decide, by decide⟩

end TransactionHistory

/-! ## Theorems: request parameters -/

namespace Requests

/-- An event of the consents view only adds list requests without patient id. -/
theorem consents_step_fetches (σ τ : ConsentManagement.Sys) (e : ConsentManagement.Event)
    (h : ConsentManagement.step σ e = some τ) (p st : Option String)
    (hm : ConsentManagement.Effect.getConsents p st ∈ τ.log) :
    ConsentManagement.Effect.getConsents p st ∈ σ.log ∨ p = none := by
  have hfetch : ∀ (f : String) (c : ConsentManagement.Caller) (s : ConsentManagement.State),
      ConsentManagement.Effect.getConsents p st ∈ (ConsentManagement.fetchConsents f c s).effects →
      p = none := by
    intro f c s hx
    simp only [ConsentManagement.fetchConsents, List.mem_singleton,
      ConsentManagement.Effect.getConsents.injEq] at hx
    exact hx.1
  cases e with
  | accountChanged a =>
    simp only [ConsentManagement.step, Option.some.injEq] at h
    subst h
    exact Or.inl hm
  | submit =>
    simp only [ConsentManagement.step, Option.some.injEq] at h
    subst h
    simp only [ConsentManagement.commit, List.mem_append] at hm
    rcases hm with hm | hm
    · exact Or.inl hm
    · exfalso
      unfold ConsentManagement.handleCreateConsent at hm
      split at hm
      · simp at hm
      · split at hm
        · simp at hm
        · split at hm
          · simp at hm
          · simp at hm
  | updateStatus cid status =>
    simp only [ConsentManagement.step, Option.some.injEq] at h
    subst h
    simp only [ConsentManagement.commit, ConsentManagement.handleUpdateStatus,
      List.mem_append, List.mem_singleton] at hm
    rcases hm with hm | hm
    · exact Or.inl hm
    · exact ConsentManagement.Effect.noConfusion hm
  | filter f =>
    simp only [ConsentManagement.step, Option.some.injEq] at h
    subst h
    simp only [ConsentManagement.commit, List.mem_append] at hm
    rcases hm with hm | hm
    · exact Or.inl hm
    · unfold ConsentManagement.setFilterStatus at hm
      split at hm
      · simp at hm
      · exact Or.inr (hfetch _ _ _ hm)
  | formChange field value =>
    simp only [ConsentManagement.step, Option.some.injEq] at h
    subst h
    exact Or.inl hm
  | toggleForm =>
    simp only [ConsentManagement.step, Option.some.injEq] at h
    subst h
    exact Or.inl hm
  | settle i r =>
    simp only [ConsentManagement.step] at h
    cases hp : σ.pending[i]? with
    | none => simp [hp] at h
    | some q =>
      cases hr : ConsentManagement.resume q r σ.state with
      | none => simp [hp, hr] at h
      | some seg =>
        simp only [hp, hr, Option.some.injEq] at h
        subst h
        simp only [ConsentManagement.commit, List.mem_append] at hm
        rcases hm with hm | hm
        · exact Or.inl hm
        · right
          cases q with
          | sign fd a f =>
            cases r <;> simp [ConsentManagement.resume,
              ConsentManagement.handleCreateConsent_signed] at hr <;> subst hr <;>
              simp at hm
          | create f =>
            cases r <;> simp only [ConsentManagement.resume, Option.some.injEq,
              reduceCtorEq] at hr <;> subst hr
            · simp [ConsentManagement.handleCreateConsent_created] at hm
            · simp only [ConsentManagement.handleCreateConsent_created] at hm
              exact hfetch _ _ _ hm
          | update f =>
            cases r <;> simp only [ConsentManagement.resume, Option.some.injEq,
              reduceCtorEq] at hr <;> subst hr
            · simp [ConsentManagement.handleUpdateStatus_updated] at hm
            · simp only [ConsentManagement.handleUpdateStatus_updated] at hm
              exact hfetch _ _ _ hm
          | fetch f c =>
            cases r <;> cases c <;> simp [ConsentManagement.resume,
              ConsentManagement.fetchConsents_settled] at hr <;> subst hr <;> simp at hm

/-- C25: the list request of the consents view never carries a patient id and carries a status
exactly when the filter is not "all": `fetchConsents` calls the gateway with (null, null) for
the filter "all", giving the parameters {}, and with (null, f) for any other filter f, giving
the parameters {status: f}; no event of the view adds a list request with a patient id. -/
theorem C25_consent_list_request (f : String) (c : ConsentManagement.Caller)
    (s : ConsentManagement.State) :
    (ConsentManagement.fetchConsents f c s).effects
        = [ConsentManagement.Effect.getConsents none (ConsentManagement.statusParam f)]
      ∧ (ConsentManagement.fetchConsents "all" c s).effects
        = [ConsentManagement.Effect.getConsents none none]
      ∧ ApiService.getConsentsParams none (ConsentManagement.statusParam "all") = []
      ∧ (f ≠ "all" →
          (ConsentManagement.fetchConsents f c s).effects
              = [ConsentManagement.Effect.getConsents none (some f)]
            ∧ ApiService.getConsentsParams none (ConsentManagement.statusParam f)
              = [("status", ApiService.ParamValue.str f)])
      ∧ (∀ (σ τ : ConsentManagement.Sys) (e : ConsentManagement.Event) (p st : Option String),
          ConsentManagement.step σ e = some τ →
          ConsentManagement.Effect.getConsents p st ∈ τ.log →
          ConsentManagement.Effect.getConsents p st ∈ σ.log ∨ p = none) := by
  refine ⟨rfl, rfl, rfl, ?_, ?_⟩
  · intro hf
    simp [ConsentManagement.fetchConsents, ConsentManagement.statusParam, hf,
      ApiService.getConsentsParams]
  · intro σ τ e p st h hm
    exact consents_step_fetches σ τ e h p st hm

/-- C25 at a concrete input: the filter "active", as in the gateway test. -/
theorem C25_consent_list_request_witness :
    (ConsentManagement.fetchConsents "active" ConsentManagement.Caller.effect
        ConsentManagement.initialState).effects
        = [ConsentManagement.Effect.getConsents none (some "active")]
      ∧ ApiService.getConsentsParams none (ConsentManagement.statusParam "active")
        = [("status", ApiService.ParamValue.str "active")] :=
  (C25_consent_list_request "active" ConsentManagement.Caller.effect
    ConsentManagement.initialState).2.2.2.1 (by decide)

/-- C26: the transactions view always asks for 20 transactions; the address argument is the
current account when the wallet-scope toggle is on and null otherwise, so the parameters are
{limit: 20, walletAddress: account} when the toggle is on and an account is connected and
{limit: 20} when the toggle is off or there is no account; toggling twice restores the toggle
and the second request is the one of the original scope. -/
theorem C26_transactions_request (σ : TransactionHistory.Sys) :
    (TransactionHistory.fetchTransactions σ.account σ.state.filterEnabled σ.state).effects
        = [TransactionHistory.Effect.getTransactions
            (if σ.state.filterEnabled then σ.account else none) 20]
      ∧ (∀ a, σ.state.filterEnabled = true → σ.account = some a →
          ApiService.getTransactionsParams
              (if σ.state.filterEnabled then σ.account else none) 20
            = [("limit", ApiService.ParamValue.num 20),
               ("walletAddress", ApiService.ParamValue.str a)])
      ∧ (σ.state.filterEnabled = false ∨ σ.account = none →
          ApiService.getTransactionsParams
              (if σ.state.filterEnabled then σ.account else none) 20
            = [("limit", ApiService.ParamValue.num 20)])
      ∧ (∃ τ, TransactionHistory.run σ
            [TransactionHistory.Event.toggleFilter, TransactionHistory.Event.toggleFilter]
            = some τ
          ∧ τ.state.filterEnabled = σ.state.filterEnabled
          ∧ τ.log = σ.log ++
              [TransactionHistory.Effect.getTransactions
                (if σ.state.filterEnabled then none else σ.account) 20,
               TransactionHistory.Effect.getTransactions
                (if σ.state.filterEnabled then σ.account else none) 20])
      ∧ (∀ (τ : TransactionHistory.Sys) (e : TransactionHistory.Event)
            (w : Option String) (l : ℕ),
          TransactionHistory.step σ e = some τ →
          TransactionHistory.Effect.getTransactions w l ∈ τ.log →
          TransactionHistory.Effect.getTransactions w l ∈ σ.log ∨ l = 20) := by
  obtain ⟨account, ⟨transactions, loading, error, filterEnabled, loaded⟩, pending, log⟩ := σ
  refine ⟨rfl, ?_, ?_, ?_, ?_⟩
  · intro a hfe hacc
    simp only at hfe hacc
    subst hfe hacc
    rfl
  · intro h
    simp only at h
    rcases h with h | h
    · subst h
      rfl
    · subst h
      cases filterEnabled <;> rfl
  · cases filterEnabled <;> cases loaded <;>
      simp [TransactionHistory.run, TransactionHistory.step, TransactionHistory.commit,
        TransactionHistory.fetchTransactions]
  · intro τ e w l h hm
    cases e with
    | accountChanged a =>
      simp only [TransactionHistory.step] at h
      split at h
      · simp only [Option.some.injEq] at h
        subst h
        exact Or.inl hm
      · simp only [Option.some.injEq] at h
        subst h
        simp only [TransactionHistory.commit, TransactionHistory.fetchTransactions,
          List.mem_append, List.mem_singleton,
          TransactionHistory.Effect.getTransactions.injEq] at hm
        rcases hm with hm | hm
        · exact Or.inl hm
        · exact Or.inr hm.2
    | toggleFilter =>
      simp only [TransactionHistory.step, Option.some.injEq] at h
      subst h
      simp only [TransactionHistory.commit, TransactionHistory.fetchTransactions,
        List.mem_append, List.mem_singleton,
        TransactionHistory.Effect.getTransactions.injEq] at hm
      rcases hm with hm | hm
      · exact Or.inl hm
      · exact Or.inr hm.2
    | settle i r =>
      simp only [TransactionHistory.step] at h
      cases hp : pending[i]? with
      | none => simp [hp] at h
      | some q =>
        simp only [hp, Option.some.injEq] at h
        subst h
        cases q
        cases r <;>
          simp only [TransactionHistory.commit, TransactionHistory.resume,
            TransactionHistory.fetchTransactions_settled, List.append_nil] at hm <;>
          exact Or.inl hm

/-- C26 at a concrete input: a connected account with the toggle on, as at mount. -/
theorem C26_transactions_request_witness :
    ApiService.getTransactionsParams
        (if (TransactionHistory.mount
              (some "0x1234567890abcdef1234567890abcdef12345678")).state.filterEnabled
          then (TransactionHistory.mount
              (some "0x1234567890abcdef1234567890abcdef12345678")).account
          else none) 20
      = [("limit", ApiService.ParamValue.num 20),
         ("walletAddress",
          ApiService.ParamValue.str "0x1234567890abcdef1234567890abcdef12345678")] :=
  (C26_transactions_request
    (TransactionHistory.mount (some "0x1234567890abcdef1234567890abcdef12345678"))).2.1
    "0x1234567890abcdef1234567890abcdef12345678" rfl rfl

end Requests

/-! ## Theorems: a failed re-fetch after a successful mutation -/

namespace ConsentManagement

/-- C29: `fetchConsents` never fails towards its caller: whatever the request's outcome, the
code after it emits nothing and the caller continues. So when the create request succeeds and
the re-fetch that follows fails, no "Failed to create consent" notification is shown, the form
is already empty and hidden, the consent list is as before, `error` holds the message of the
re-fetch failure and `creating` is false; and when an update succeeds and its re-fetch fails,
no "Failed to update consent" notification is shown. -/
theorem C29_refetch_failure_not_reported (σ : Sys) (a sig consentId newStatus : String)
    (err : JsError) (hacc : σ.account = some a) (ha : a ≠ "")
    (hpid : σ.state.formData.patientId ≠ "") (hpur : σ.state.formData.purpose ≠ "") :
    (∀ (c : Caller) (r : Except JsError (Option ConsentsResponse)) (s : State),
        (fetchConsents_settled c r s).effects = [] ∧ (fetchConsents_settled c r s).next = none)
      ∧ (∃ σ4, run σ [Event.submit, Event.settle σ.pending.length (Reply.signature sig),
                  Event.settle σ.pending.length Reply.done,
                  Event.settle σ.pending.length (Reply.rejected err)] = some σ4
          ∧ (σ4.log.drop σ.log.length).filter Effect.isAlert = []
          ∧ σ4.state.formData = { patientId := "", purpose := "" }
          ∧ σ4.state.showCreateForm = false
          ∧ σ4.state.consents = σ.state.consents
          ∧ σ4.state.error = some err.message
          ∧ σ4.state.creating = false
          ∧ σ4.pending = σ.pending)
      ∧ (∃ σ3, run σ [Event.updateStatus consentId newStatus,
                  Event.settle σ.pending.length Reply.done,
                  Event.settle σ.pending.length (Reply.rejected err)] = some σ3
          ∧ (σ3.log.drop σ.log.length).filter Effect.isAlert = []
          ∧ σ3.state.consents = σ.state.consents
          ∧ σ3.state.error = some err.message
          ∧ σ3.pending = σ.pending) := by
  refine ⟨?_, ?_, ?_⟩
  · intro c r s
    cases c <;> simp [fetchConsents_settled]
  · have h := run_append σ [Event.submit, Event.settle σ.pending.length (Reply.signature sig)]
      [Event.settle σ.pending.length Reply.done,
       Event.settle σ.pending.length (Reply.rejected err)]
    simp only [List.cons_append, List.nil_append] at h
    rw [h, run_submit_signed σ a sig hacc ha hpid hpur]
    simp only [Option.some_bind, run, step, getElem?_snoc, eraseIdx_snoc, resume,
      handleCreateConsent_created, fetchConsents, fetchConsents_settled, commit, Option.toList,
      List.append_nil]
    cases hl : σ.state.initialLoadedRef <;> simp [List.drop_append, Effect.isAlert]
  · simp only [run, step, handleUpdateStatus, commit, Option.toList, getElem?_snoc,
      eraseIdx_snoc, resume, handleUpdateStatus_updated, fetchConsents, fetchConsents_settled,
      List.append_nil]
    cases hl : σ.state.initialLoadedRef <;> simp [List.drop_append, Effect.isAlert]

/-- C29 at a concrete input: the create succeeds and the re-fetch fails with "Server Error". -/
theorem C29_refetch_failure_not_reported_witness :
    ∃ σ4, run { mount (some "0xabc") with
                  state := { initialState with
                    showCreateForm := true
                    formData := { patientId := "patient-001",
                                  purpose := "Research Study Participation" } } }
              [Event.submit, Event.settle 1 (Reply.signature "0xsig"),
               Event.settle 1 Reply.done,
               Event.settle 1 (Reply.rejected { message := "Server Error" })] = some σ4
      ∧ (σ4.log.drop 1).filter Effect.isAlert = []
      ∧ σ4.state.error = some "Server Error" := by
  obtain ⟨_, ⟨σ4, h1, h2, _, _, _, h6, _⟩, _⟩ := C29_refetch_failure_not_reported
    { mount (some "0xabc") with
        state := { initialState with
          showCreateForm := true
          formData := { patientId := "patient-001",
                        purpose := "Research Study Participation" } } }
    "0xabc" "0xsig" "consent-001" "active" { message := "Server Error" } rfl (by decide)
    (by decide) (by decide)
  exact ⟨σ4, h1, h2, h6⟩

end ConsentManagement
